import Mathlib

/-!
Verification of the declarative reconciliation modules of the
`ansible-truenas` collection (plugins/modules/*.py) against their
natural-language specification.

The Python modules are shallowly embedded: each module's `main` flow becomes a
pure Lean function from the remote database (the records the middleware query
would return) and the parsed module parameters to an outcome that records the
exit (success/failure, `changed` flag) together with every mutating middleware
call the flow would issue.  Python `None` becomes `Option.none`, Python dicts
with string keys become association lists, and Python truthiness tests are
spelled out explicitly at each site that uses them.
-/

/-! ## String keys and JSON-like scalar values

Dictionaries handled by the modules (`listen` entries of a portal, `groups`
entries of a target) map string keys to scalar values that are either numbers
or strings.  Python sorts tuples of such pairs lexicographically; we order the
wrapped strings by their character lists and scalar values with every number
below every string, which agrees with Python on every comparison the modules
actually perform (a given key holds values of a single scalar type).
-/

/-- Wrapper for Python strings, ordered by the underlying character list. -/
structure Str where
  s : String
deriving DecidableEq

theorem Str.data_injective : Function.Injective (fun k : Str => k.s.data) := by
  intro a b h
  cases a with | mk sa =>
  cases b with | mk sb =>
  cases sa
  cases sb
  simp_all

instance : LinearOrder Str := LinearOrder.lift' (fun k => k.s.data) Str.data_injective

/-- Scalar JSON value: an integer or a string, integers ordered below strings. -/
abbrev Val : Type := Int ⊕ₗ Str

/-- Embed an integer value. -/
def Val.int (n : Int) : Val := toLex (Sum.inl n)

/-- Embed a string value. -/
def Val.str (v : String) : Val := toLex (Sum.inr ⟨v⟩)

/-- One `(key, value)` item of a Python dict, ordered as Python orders the
corresponding 2-tuples: by key first, then by value. -/
abbrev Pair : Type := Str ×ₗ Val

/-- Build a dict item from a key literal and a value. -/
def Pair.mk (k : String) (v : Val) : Pair := toLex (⟨k⟩, v)

/-- A Python dict with string keys, as an association list in key insertion
order.  Real Python dicts never repeat a key; theorems that depend on this
carry a `NodupKeys` hypothesis. -/
abbrev Dict : Type := List Pair

/-- The key of a dict item. -/
def Pair.key (p : Pair) : Str := (ofLex p).1

/-- The value of a dict item. -/
def Pair.val (p : Pair) : Val := (ofLex p).2

/-- The keys of a dict, in order. -/
def Dict.keys (d : Dict) : List Str := d.map Pair.key

/-- A genuine Python dict: no key occurs twice. -/
def Dict.NodupKeys (d : Dict) : Prop := d.keys.Nodup

instance (d : Dict) : Decidable d.NodupKeys :=
  inferInstanceAs (Decidable d.keys.Nodup)

/-- First-match association-list lookup: the value a Python dict stores under
key `k` (insertion order is irrelevant once keys are unique). -/
def Dict.get : Str → Dict → Option Val
  | _, [] => none
  | k, p :: rest => if p.key = k then some p.val else Dict.get k rest

/-- Two association lists are the same Python dict when they agree under
lookup at every key. -/
def Dict.EquivMap (d₁ d₂ : Dict) : Prop := ∀ k : Str, Dict.get k d₁ = Dict.get k d₂

theorem Dict.mem_keys_iff {d : Dict} {k : Str} :
    k ∈ d.keys ↔ ∃ p, p ∈ d ∧ p.key = k := by
  simp [Dict.keys, List.mem_map]

theorem Dict.nodupKeys_cons {p : Pair} {rest : Dict} (h : Dict.NodupKeys (p :: rest)) :
    p.key ∉ rest.keys ∧ rest.NodupKeys := by
  simpa only [Dict.NodupKeys, Dict.keys, List.map_cons, List.nodup_cons] using h

theorem Dict.get_eq_some_iff {d : Dict} (h : d.NodupKeys) {k : Str} {v : Val} :
    Dict.get k d = some v ↔ ∃ p, p ∈ d ∧ p.key = k ∧ p.val = v := by
  induction d with
  | nil => simp [Dict.get]
  | cons p rest ih =>
    obtain ⟨hk, hrest⟩ := Dict.nodupKeys_cons h
    by_cases hpk : p.key = k
    · simp only [Dict.get, if_pos hpk]
      constructor
      · intro hget
        exact ⟨p, List.mem_cons_self p rest, hpk, Option.some.inj hget⟩
      · rintro ⟨q, hq, hqk, hqv⟩
        rcases List.mem_cons.mp hq with heq | hq
        · rw [← heq, hqv]
        · exact absurd (Dict.mem_keys_iff.mpr ⟨q, hq, hqk.trans hpk.symm⟩) hk
    · simp only [Dict.get, if_neg hpk]
      rw [ih hrest]
      constructor
      · rintro ⟨q, hq, hqk, hqv⟩
        exact ⟨q, List.mem_cons_of_mem p hq, hqk, hqv⟩
      · rintro ⟨q, hq, hqk, hqv⟩
        rcases List.mem_cons.mp hq with heq | hq
        · exact absurd (heq ▸ hqk) hpk
        · exact ⟨q, hq, hqk, hqv⟩

theorem Dict.get_eq_none_iff {d : Dict} {k : Str} :
    Dict.get k d = none ↔ k ∉ d.keys := by
  induction d with
  | nil => simp [Dict.get, Dict.keys]
  | cons p rest ih =>
    simp only [Dict.get, Dict.keys, List.map_cons, List.mem_cons]
    by_cases hpk : p.key = k
    · simp [hpk]
    · have : ¬k = p.key := fun h => hpk h.symm
      simp only [if_neg hpk, ih, Dict.keys]
      tauto

/-- Keys of a permuted dict are a permutation of the keys. -/
theorem Dict.keys_perm {d₁ d₂ : Dict} (h : d₁.Perm d₂) : d₁.keys.Perm d₂.keys :=
  h.map Pair.key

/-- A permutation of a dict with unique keys still has unique keys. -/
theorem Dict.NodupKeys.perm {d₁ d₂ : Dict} (h : d₁.NodupKeys) (hp : d₁.Perm d₂) :
    d₂.NodupKeys :=
  (Dict.keys_perm hp).nodup_iff.mp h

/-- Lookup in a dict with unique keys only depends on the entries, not on
their order. -/
theorem Dict.get_of_perm {d₁ d₂ : Dict} (h : d₁.NodupKeys) (hp : d₁.Perm d₂) :
    ∀ k, Dict.get k d₁ = Dict.get k d₂ := by
  intro k
  cases hget : Dict.get k d₂ with
  | none =>
    rw [Dict.get_eq_none_iff] at hget ⊢
    exact fun hmem => hget ((Dict.keys_perm hp).mem_iff.mp hmem)
  | some v =>
    rw [Dict.get_eq_some_iff (h.perm hp)] at hget
    rw [Dict.get_eq_some_iff h]
    obtain ⟨q, hq, hrestq⟩ := hget
    exact ⟨q, hp.mem_iff.mpr hq, hrestq⟩

/-! ## `iscsi_portal.normalize_list_of_dicts`

The portal module's listen-list normalizer (`iscsi_portal.py`,
`normalize_list_of_dicts`): every element dict is copied skipping the
`"port"` key, the copied items are sorted, and the list of sorted tuples is
itself sorted.  Python's `sorted`/`list.sort` on values of a linear order is
extensionally the unique sorted arrangement, embedded here with
`List.insertionSort`.
-/

/-- The excluded key of the portal listen comparison. -/
def portKey : Str := ⟨"port"⟩

/-- Copy of a dict skipping the `"port"` key (`if k == "port": continue`). -/
def stripPort (d : Dict) : Dict := d.filter (fun p => decide (p.key ≠ portKey))

/-- `tuple(sorted(item_copy.items()))` of the source. -/
def normElem (item : Dict) : Dict :=
  List.insertionSort (· ≤ ·) (stripPort item)

/-- `normalize_list_of_dicts` of `iscsi_portal.py`: normalize every element,
then sort the resulting list (the `if not lst: return []` fast path agrees
with the general path at `[]`; the `None` argument case is
`normalize_list_of_dicts_opt`). -/
def normalize_list_of_dicts (lst : List Dict) : List Dict :=
  List.insertionSort (· ≤ ·) (lst.map normElem)

/-- The source calls the normalizer on `existing.get("listen")`, which may be
Python `None`; `if not lst` maps that to `[]` as well. -/
def normalize_list_of_dicts_opt : Option (List Dict) → List Dict
  | none => []
  | some lst => normalize_list_of_dicts lst

theorem stripPort_nodupKeys {d : Dict} (h : d.NodupKeys) : (stripPort d).NodupKeys := by
  have hsub : (stripPort d).keys.Sublist d.keys := (List.filter_sublist d).map Pair.key
  exact hsub.nodup h

theorem get_stripPort (d : Dict) (k : Str) :
    Dict.get k (stripPort d) = if k = portKey then none else Dict.get k d := by
  induction d with
  | nil => simp [stripPort, Dict.get]
  | cons p rest ih =>
    by_cases hp : p.key = portKey
    · have : stripPort (p :: rest) = stripPort rest := by
        simp [stripPort, List.filter_cons, hp]
      rw [this, ih]
      by_cases hk : k = portKey
      · simp [hk]
      · have : ¬p.key = k := fun h => hk (h ▸ hp.symm ▸ rfl)
        simp only [if_neg hk, Dict.get, if_neg (hp.trans_ne (Ne.symm hk))]
    · have : stripPort (p :: rest) = p :: stripPort rest := by
        simp [stripPort, List.filter_cons, hp]
      rw [this]
      by_cases hpk : p.key = k
      · have hk : ¬k = portKey := fun h => hp (hpk.trans h)
        simp [Dict.get, hpk, hk]
      · simp only [Dict.get, if_neg hpk, ih]

theorem Pair.ext_kv {p q : Pair} (h1 : p.key = q.key) (h2 : p.val = q.val) : p = q := by
  have : ofLex p = ofLex q := Prod.ext h1 h2
  exact ofLex_inj.mp this

/-- Membership in a unique-key dict is determined by lookup. -/
theorem Dict.mem_iff_get {d : Dict} (h : d.NodupKeys) {p : Pair} :
    p ∈ d ↔ Dict.get p.key d = some p.val := by
  rw [Dict.get_eq_some_iff h]
  constructor
  · intro hp
    exact ⟨p, hp, rfl, rfl⟩
  · rintro ⟨q, hq, hqk, hqv⟩
    exact (Pair.ext_kv hqk hqv) ▸ hq

/-- Unique-key dicts that agree under lookup everywhere are permutations of
each other. -/
theorem Dict.perm_of_equivMap {d₁ d₂ : Dict} (h₁ : d₁.NodupKeys) (h₂ : d₂.NodupKeys)
    (h : Dict.EquivMap d₁ d₂) : d₁.Perm d₂ := by
  rw [List.perm_ext_iff_of_nodup (List.Nodup.of_map Pair.key h₁) (List.Nodup.of_map Pair.key h₂)]
  intro p
  rw [Dict.mem_iff_get h₁, Dict.mem_iff_get h₂, h p.key]

theorem normElem_perm_stripPort (d : Dict) : (normElem d).Perm (stripPort d) :=
  List.perm_insertionSort _ _

/-- Any two sorts of permuted lists over a linear order coincide; this is what
lets `List.insertionSort` stand in for Python's `sorted`. -/
theorem sort_eq_of_perm {α : Type} [LinearOrder α] {l₁ l₂ : List α} (h : l₁.Perm l₂) :
    List.insertionSort (· ≤ ·) l₁ = List.insertionSort (· ≤ ·) l₂ :=
  List.eq_of_perm_of_sorted
    ((List.perm_insertionSort _ _).trans (h.trans (List.perm_insertionSort _ _).symm))
    (List.sorted_insertionSort _ _) (List.sorted_insertionSort _ _)

/-- Two dicts that agree off the `"port"` key have the same normal form. -/
theorem normElem_eq_of {d₁ d₂ : Dict} (h₁ : d₁.NodupKeys) (h₂ : d₂.NodupKeys)
    (h : ∀ k, k ≠ portKey → Dict.get k d₁ = Dict.get k d₂) : normElem d₁ = normElem d₂ := by
  apply sort_eq_of_perm
  apply Dict.perm_of_equivMap (stripPort_nodupKeys h₁) (stripPort_nodupKeys h₂)
  intro k
  rw [get_stripPort, get_stripPort]
  by_cases hk : k = portKey
  · simp [hk]
  · simp only [if_neg hk, h k hk]

/-- Conversely, equal normal forms force agreement off the `"port"` key. -/
theorem get_eq_of_normElem_eq {d₁ d₂ : Dict} (h₁ : d₁.NodupKeys) (h₂ : d₂.NodupKeys)
    (h : normElem d₁ = normElem d₂) :
    ∀ k, k ≠ portKey → Dict.get k d₁ = Dict.get k d₂ := by
  intro k hk
  have e₁ : Dict.get k (stripPort d₁) = Dict.get k (normElem d₁) :=
    Dict.get_of_perm (stripPort_nodupKeys h₁) (normElem_perm_stripPort d₁).symm k
  have e₂ : Dict.get k (stripPort d₂) = Dict.get k (normElem d₂) :=
    Dict.get_of_perm (stripPort_nodupKeys h₂) (normElem_perm_stripPort d₂).symm k
  have s₁ := get_stripPort d₁ k
  have s₂ := get_stripPort d₂ k
  rw [if_neg hk] at s₁ s₂
  rw [← s₁, ← s₂, e₁, e₂, h]

/-- Decompose a permutation of mapped lists into a permutation plus an
element-wise correspondence under the map. -/
theorem exists_perm_forall₂_of_map_perm {α β : Type} (f : α → β) :
    ∀ (l₁ l₂ : List α), (l₁.map f).Perm (l₂.map f) →
      ∃ l₂', l₂.Perm l₂' ∧ List.Forall₂ (fun a b => f a = f b) l₁ l₂' := by
  intro l₁
  induction l₁ with
  | nil =>
    intro l₂ h
    have : l₂.map f = [] := h.symm.eq_nil
    have hl₂ : l₂ = [] := List.map_eq_nil_iff.mp this
    exact ⟨[], by rw [hl₂], List.Forall₂.nil⟩
  | cons a t ih =>
    intro l₂ h
    have hmem : f a ∈ l₂.map f := h.mem_iff.mp (List.mem_cons_self _ _)
    obtain ⟨b, hb, hfb⟩ := List.mem_map.mp hmem
    obtain ⟨s, t₂, rfl⟩ := List.append_of_mem hb
    have hperm : (s ++ b :: t₂).map f |>.Perm (f b :: (s ++ t₂).map f) := by
      rw [List.map_append, List.map_cons, List.map_append]
      exact List.perm_middle
    have h' : (t.map f).Perm ((s ++ t₂).map f) := by
      have hh := h.trans hperm
      rw [List.map_cons, hfb] at hh
      exact hh.cons_inv
    obtain ⟨l₂', hp, hf⟩ := ih (s ++ t₂) h'
    refine ⟨b :: l₂', ?_, List.Forall₂.cons hfb.symm hf⟩
    exact List.perm_middle.trans (hp.cons b)

/-- The spec-side relation of exclusion correctness: the two lists pair up,
possibly after reordering, into elements that agree on every key other than
`"port"` (value differences confined to `"port"`, any element order, any key
order within elements). -/
def SameExceptPort (l₁ l₂ : List Dict) : Prop :=
  ∃ l₂', l₂.Perm l₂' ∧
    List.Forall₂ (fun d e => ∀ k, k ≠ portKey → Dict.get k d = Dict.get k e) l₁ l₂'

theorem forall₂_normElem_of_get {l₁ l₂' : List Dict} :
    List.Forall₂ (fun d e => ∀ k, k ≠ portKey → Dict.get k d = Dict.get k e) l₁ l₂' →
    (∀ d ∈ l₁, d.NodupKeys) → (∀ d ∈ l₂', d.NodupKeys) →
    l₁.map normElem = l₂'.map normElem := by
  intro hf
  induction hf with
  | nil => intro _ _; rfl
  | cons hab hrest ih =>
    intro h₁ h₂
    simp only [List.map_cons]
    have e := normElem_eq_of (h₁ _ (List.mem_cons_self _ _)) (h₂ _ (List.mem_cons_self _ _)) hab
    rw [e, ih (fun d hd => h₁ d (List.mem_cons_of_mem _ hd))
      (fun d hd => h₂ d (List.mem_cons_of_mem _ hd))]

theorem forall₂_get_of_normElem {l₁ l₂' : List Dict} :
    List.Forall₂ (fun d e => normElem d = normElem e) l₁ l₂' →
    (∀ d ∈ l₁, d.NodupKeys) → (∀ d ∈ l₂', d.NodupKeys) →
    List.Forall₂ (fun d e => ∀ k, k ≠ portKey → Dict.get k d = Dict.get k e) l₁ l₂' := by
  intro hf
  induction hf with
  | nil => intro _ _; exact List.Forall₂.nil
  | cons hab hrest ih =>
    intro h₁ h₂
    refine List.Forall₂.cons ?_ (ih (fun d hd => h₁ d (List.mem_cons_of_mem _ hd))
      (fun d hd => h₂ d (List.mem_cons_of_mem _ hd)))
    exact get_eq_of_normElem_eq (h₁ _ (List.mem_cons_self _ _))
      (h₂ _ (List.mem_cons_self _ _)) hab

/-- Exclusion correctness of the listen normalizer: on genuine dicts, the
canonical forms coincide exactly when the lists agree up to element order, key
order, and values stored under the excluded `"port"` key. -/
theorem normalize_eq_iff_sameExceptPort {l₁ l₂ : List Dict}
    (h₁ : ∀ d ∈ l₁, d.NodupKeys) (h₂ : ∀ d ∈ l₂, d.NodupKeys) :
    normalize_list_of_dicts l₁ = normalize_list_of_dicts l₂ ↔ SameExceptPort l₁ l₂ := by
  constructor
  · intro h
    have p₁ : (normalize_list_of_dicts l₁).Perm (l₁.map normElem) :=
      List.perm_insertionSort _ _
    have p₂ : (normalize_list_of_dicts l₁).Perm (l₂.map normElem) := by
      rw [h]
      exact List.perm_insertionSort _ _
    have hperm : (l₁.map normElem).Perm (l₂.map normElem) := p₁.symm.trans p₂
    obtain ⟨l₂', hp, hf⟩ := exists_perm_forall₂_of_map_perm normElem l₁ l₂ hperm
    refine ⟨l₂', hp, forall₂_get_of_normElem hf h₁ ?_⟩
    exact fun d hd => h₂ d (hp.mem_iff.mpr hd)
  · rintro ⟨l₂', hp, hf⟩
    have hmaps : l₁.map normElem = l₂'.map normElem :=
      forall₂_normElem_of_get hf h₁ (fun d hd => h₂ d (hp.mem_iff.mpr hd))
    show List.insertionSort (· ≤ ·) (l₁.map normElem)
        = List.insertionSort (· ≤ ·) (l₂.map normElem)
    rw [hmaps]
    exact sort_eq_of_perm (hp.map normElem).symm

/-! ## Python truthiness helpers -/

/-- Python truthiness of an optional string (`if name:`): `None` and `""` are
falsy. -/
def truthyStr : Option String → Bool
  | none => false
  | some st => decide (st ≠ "")

/-- Python truthiness of an optional integer (`if some_id:`): `None` and `0`
are falsy. -/
def truthyInt : Option Int → Bool
  | none => false
  | some n => decide (n ≠ 0)

/-! ## `iscsi_portal.py`

State of one portal record as returned by `iscsi.portal.query`, the parsed
module parameters, and the `main` flow for each `state`.  Outcomes carry the
mutating middleware calls the flow issues (`check_mode` suppresses them but
not the classification).
-/

/-- A portal record as returned by the middleware. -/
structure PRec where
  id : Int
  comment : Option String
  discovery_authmethod : Option String
  discovery_authgroup : Option Int
  listen : Option (List Dict)
deriving DecidableEq

/-- Parsed parameters of the `iscsi_portal` module (every option may be
Python `None`). -/
structure PParams where
  id : Option Int
  comment : Option String
  discovery_authmethod : Option String
  discovery_authgroup : Option Int
  listen : Option (List Dict)
deriving DecidableEq

/-- `get_portal_by_id`: `iscsi.portal.query` with filter `["id","=",pid]`,
returning `portals[0] if portals else None`. -/
def get_portal_by_id (db : List PRec) (pid : Int) : Option PRec :=
  (db.filter (fun r => decide (r.id = pid))).head?

/-- The update payload assembled by the portal `state=present` branch; a
`none` field means the key is absent from the `updates` dict. -/
structure PUpdates where
  comment : Option String
  discovery_authmethod : Option String
  discovery_authgroup : Option Int
  listen : Option (List Dict)
deriving DecidableEq

/-- Python `if not updates:` — the dict is empty. -/
def PUpdates.isEmpty (u : PUpdates) : Bool :=
  u.comment.isNone && u.discovery_authmethod.isNone &&
    u.discovery_authgroup.isNone && u.listen.isNone

/-- The field-by-field update computation of `iscsi_portal.main`
(`state=present`, id found): a parameter enters `updates` iff it is not
`None` and differs from the existing value; `listen` is compared through
`normalize_list_of_dicts`. -/
def portal_updates (existing : PRec) (p : PParams) : PUpdates where
  comment := match p.comment with
    | none => none
    | some c => if existing.comment = some c then none else some c
  discovery_authmethod := match p.discovery_authmethod with
    | none => none
    | some m => if existing.discovery_authmethod = some m then none else some m
  discovery_authgroup := match p.discovery_authgroup with
    | none => none
    | some g => if existing.discovery_authgroup = some g then none else some g
  listen := match p.listen with
    | none => none
    | some ls =>
      if normalize_list_of_dicts_opt existing.listen = normalize_list_of_dicts ls
      then none else some ls

/-- The creation payload of the portal create branch; `listen` defaults to
`[{"ip": "0.0.0.0"}]` when the parameter is `None`. -/
structure PPayload where
  comment : Option String
  discovery_authmethod : Option String
  discovery_authgroup : Option Int
  listen : List Dict
deriving DecidableEq

/-- Default listen list used by portal creation. -/
def portal_default_listen : List Dict := [[Pair.mk "ip" (Val.str "0.0.0.0")]]

/-- Payload built by the portal create branch from the provided parameters. -/
def portal_create_payload (p : PParams) : PPayload where
  comment := p.comment
  discovery_authmethod := p.discovery_authmethod
  discovery_authgroup := p.discovery_authgroup
  listen := p.listen.getD portal_default_listen

/-- A mutating middleware call of the portal module. -/
inductive PortalCall where
  | create (payload : PPayload)
  | update (pid : Int) (updates : PUpdates)
  | delete (pid : Int)
deriving DecidableEq

/-- Exit of a portal invocation: `fail_json` or `exit_json` with the
`changed` flag, together with the mutating calls issued. -/
inductive POutcome where
  | failedP (msg : String)
  | okP (changed : Bool) (calls : List PortalCall)
deriving DecidableEq

/-- `iscsi_portal.main`, `state=absent` branch. -/
def portal_absent (db : List PRec) (p : PParams) (check : Bool) : POutcome :=
  match p.id with
  | none => .failedP "id is required to delete an iSCSI portal."
  | some pid =>
    match get_portal_by_id db pid with
    | none => .okP false []
    | some _ => .okP true (if check then [] else [.delete pid])

/-- `iscsi_portal.main`, `state=present` branch: no id → create; id → update
the portal found by that id, failing when the id matches nothing. -/
def portal_present (db : List PRec) (p : PParams) (check : Bool) : POutcome :=
  match p.id with
  | none => .okP true (if check then [] else [.create (portal_create_payload p)])
  | some pid =>
    match get_portal_by_id db pid with
    | none => .failedP "No portal found with that id; cannot update."
    | some existing =>
      let u := portal_updates existing p
      if u.isEmpty then .okP false []
      else .okP true (if check then [] else [.update pid u])

/-! ## `iscsi_target.py`

A target record, parsed parameters, `find_target_by_id`,
`find_targets_by_name` (all targets are listed once, then filtered locally),
`normalize_groups`, and the `main` flow for each `state`.
-/

/-- A target record as returned by `iscsi.target.query` (its `name` may be
`null`, which the lookup treats as `""`). -/
structure TRec where
  id : Int
  name : Option String
  alias_ : Option String
  mode : Option String
  groups : Option (List Dict)
deriving DecidableEq

/-- Parsed parameters of the `iscsi_target` module. -/
structure TParams where
  id : Option Int
  name : Option String
  alias_ : Option String
  mode : Option String
  groups : Option (List Dict)
deriving DecidableEq

/-- `find_target_by_id`: first listed target whose `id` equals the argument. -/
def find_target_by_id (db : List TRec) (tid : Int) : Option TRec :=
  db.find? (fun t => decide (t.id = tid))

/-- `find_targets_by_name`: all targets with `(t["name"] or "") == (n or "")`
— an exact comparison after mapping `None` to `""`, with no whitespace
trimming. -/
def find_targets_by_name (db : List TRec) (n : Option String) : List TRec :=
  db.filter (fun t => decide (t.name.getD "" = n.getD ""))

/-- `normalize_groups`: each group dict becomes its sorted item tuple, and
the list of tuples is sorted (`if not grp_list: return []` agrees with the
general path at `[]`). -/
def normalize_groups : Option (List Dict) → List Dict
  | none => []
  | some l => List.insertionSort (· ≤ ·) (l.map (List.insertionSort (· ≤ ·)))

/-- The update payload assembled by the target `state=present` branch. -/
structure TUpdates where
  name : Option String
  alias_ : Option String
  mode : Option String
  groups : Option (List Dict)
deriving DecidableEq

/-- Python `if not updates:` — the dict is empty. -/
def TUpdates.isEmpty (u : TUpdates) : Bool :=
  u.name.isNone && u.alias_.isNone && u.mode.isNone && u.groups.isNone

/-- Field-by-field update computation of `iscsi_target.main` for a found
target: scalar fields compare by equality against the possibly-null existing
value, `groups` through `normalize_groups` on both sides. -/
def target_updates (existing : TRec) (p : TParams) : TUpdates where
  name := match p.name with
    | none => none
    | some v => if existing.name = some v then none else some v
  alias_ := match p.alias_ with
    | none => none
    | some v => if existing.alias_ = some v then none else some v
  mode := match p.mode with
    | none => none
    | some v => if existing.mode = some v then none else some v
  groups := match p.groups with
    | none => none
    | some g =>
      if normalize_groups existing.groups = normalize_groups (some g)
      then none else some g

/-- Payload of the target create branch: `name` is mandatory, the other
fields are included only when provided. -/
structure TPayload where
  name : String
  alias_ : Option String
  mode : Option String
  groups : Option (List Dict)
deriving DecidableEq

/-- A mutating middleware call of the target module (`delete` always passes
`force: False`). -/
inductive TargetCall where
  | create (payload : TPayload)
  | update (tid : Int) (u : TUpdates)
  | delete (tid : Int)
deriving DecidableEq

/-- Exit of a target invocation. -/
inductive TOutcome where
  | failedT (msg : String)
  | okT (changed : Bool) (calls : List TargetCall)
deriving DecidableEq

/-- Whether the invocation ended in `fail_json`. -/
def TOutcome.isFailed : TOutcome → Bool
  | .failedT _ => true
  | .okT _ _ => false

/-- The reported `changed` flag (`false` when the invocation failed). -/
def TOutcome.changed : TOutcome → Bool
  | .failedT _ => false
  | .okT c _ => c

/-- Update/create half of `iscsi_target.main` (`state=present`), after the
lookup produced `existing`. -/
def target_present_resolved (p : TParams) (check : Bool) (existing : Option TRec) :
    TOutcome :=
  match existing with
  | some ex =>
    let u := target_updates ex p
    if u.isEmpty then .okT false []
    else .okT true (if check then [] else [.update ex.id u])
  | none =>
    match p.name with
    | none => .failedT "iSCSI target name is required when creating a new target."
    | some n =>
      if n = "" then .failedT "iSCSI target name is required when creating a new target."
      else .okT true (if check then []
        else [.create { name := n, alias_ := p.alias_, mode := p.mode, groups := p.groups }])

/-- `iscsi_target.main`, `state=present`: lookup by id when given, otherwise
by (required, truthy) name with a fatal ambiguity check, then update or
create. -/
def target_present (db : List TRec) (p : TParams) (check : Bool) : TOutcome :=
  match p.id with
  | some tid => target_present_resolved p check (find_target_by_id db tid)
  | none =>
    if truthyStr p.name then
      let found := find_targets_by_name db p.name
      if 1 < found.length then
        .failedT "Multiple iSCSI targets found with that name. Provide id instead."
      else target_present_resolved p check found.head?
    else .failedT "Must provide id or name to manage iSCSI target."

/-- `iscsi_target.main`, `state=absent`: lookup by id, else by truthy name
with a fatal ambiguity check; a missing record is a successful no-op. -/
def target_absent (db : List TRec) (p : TParams) (check : Bool) : TOutcome :=
  match p.id with
  | some tid =>
    match find_target_by_id db tid with
    | none => .okT false []
    | some ex => .okT true (if check then [] else [.delete ex.id])
  | none =>
    if truthyStr p.name then
      let found := find_targets_by_name db p.name
      if 1 < found.length then
        .failedT "Multiple iSCSI targets found with that name. Provide id to disambiguate."
      else
        match found.head? with
        | none => .okT false []
        | some ex => .okT true (if check then [] else [.delete ex.id])
    else .okT false []

/-! ## Gateway semantics for the target resource

Effect of the issued calls on the remote record set, under the
no-external-interference assumption of the idempotence property: `create`
stores exactly the payload under a fresh id, `update` merges the patch into
the addressed record, `delete` removes it.
-/

/-- Merge an update payload into a record (fields absent from the payload are
untouched; the id never changes). -/
def TRec.applyUpdates (r : TRec) (u : TUpdates) : TRec where
  id := r.id
  name := match u.name with
    | some v => some v
    | none => r.name
  alias_ := match u.alias_ with
    | some v => some v
    | none => r.alias_
  mode := match u.mode with
    | some v => some v
    | none => r.mode
  groups := match u.groups with
    | some g => some g
    | none => r.groups

/-- The record produced by `iscsi.target.create` for a payload, under a
server-assigned fresh id. -/
def target_created (newId : Int) (pl : TPayload) : TRec where
  id := newId
  name := some pl.name
  alias_ := pl.alias_
  mode := pl.mode
  groups := pl.groups

/-- Apply one mutating target call to the remote record set. -/
def target_apply_call (newId : Int) (db : List TRec) : TargetCall → List TRec
  | .create pl => db ++ [target_created newId pl]
  | .update tid u => db.map (fun r => if r.id = tid then r.applyUpdates u else r)
  | .delete tid => db.filter (fun r => decide (r.id ≠ tid))

/-- Apply every call issued by an outcome to the remote record set. -/
def target_apply (db : List TRec) (newId : Int) : TOutcome → List TRec
  | .failedT _ => db
  | .okT _ calls => calls.foldl (target_apply_call newId) db

/-! ## `iscsi_extent.py` name handling

Only the identity-resolution pieces are embedded: the stripping of the
desired name (`params["name"].strip() if params["name"] else None`) and
`find_by_name`, which also strips each stored name before the exact
comparison.  Python `str.strip` removes leading and trailing whitespace,
embedded here character-list-wise as `pyStrip`.
-/

/-- Leading and trailing whitespace removal on a character list. -/
def stripChars (l : List Char) : List Char :=
  ((l.dropWhile Char.isWhitespace).reverse.dropWhile Char.isWhitespace).reverse

/-- Python `str.strip()`. -/
def pyStrip (st : String) : String := ⟨stripChars st.data⟩

/-- An extent record; only the fields the embedded lookups read are kept. -/
structure ERec where
  id : Int
  name : Option String
deriving DecidableEq

/-- `name = params["name"].strip() if params["name"] else None` of
`iscsi_extent.main`. -/
def extent_strip_name : Option String → Option String
  | none => none
  | some st => if st = "" then none else some (pyStrip st)

/-- `find_by_name` of `iscsi_extent.py`: every extent whose stored name,
stripped when truthy (`None` otherwise), equals the already-stripped desired
name. -/
def find_by_name (ext_name : String) (extents : List ERec) : List ERec :=
  extents.filter (fun e =>
    match e.name with
    | none => false
    | some st => if st = "" then false else decide (pyStrip st = ext_name))

/-! ## `user.py` identity resolution and `state=absent`

`query_user_by_name` delegates the filtering to the server
(`user.query [["username","=",name]]`) and returns `users[0] if users else
None` — the first record of the filtered result.
-/

/-- A user record; only the fields the embedded flow reads are kept. -/
structure URec where
  id : Int
  username : String
deriving DecidableEq

/-- `query_user_by_id`: server-side filter on `id`, first result or `None`. -/
def query_user_by_id (db : List URec) (uid : Int) : Option URec :=
  (db.filter (fun u => decide (u.id = uid))).head?

/-- `query_user_by_name`: server-side filter on `username`, first result or
`None`. -/
def query_user_by_name (db : List URec) (uname : String) : Option URec :=
  (db.filter (fun u => decide (u.username = uname))).head?

/-- The identification step of `user.main`: by id when given, else by truthy
username, else no record. -/
def user_resolve (db : List URec) (uid : Option Int) (uname : Option String) :
    Option URec :=
  match uid with
  | some i => query_user_by_id db i
  | none => if truthyStr uname then query_user_by_name db (uname.getD "") else none

/-- A mutating middleware call of the user module. -/
inductive UserCall where
  | delete (uid : Int) (delete_group : Bool)
deriving DecidableEq

/-- Exit of a user invocation. -/
inductive UOutcome where
  | failedU (msg : String)
  | okU (changed : Bool) (calls : List UserCall)
deriving DecidableEq

/-- `user.main`, `state=absent`: no resolved user is a successful no-op,
otherwise the resolved user (the first name match) is deleted. -/
def user_absent (db : List URec) (uid : Option Int) (uname : Option String)
    (delete_group : Bool) (check : Bool) : UOutcome :=
  match user_resolve db uid uname with
  | none => .okU false []
  | some u => .okU true (if check then [] else [.delete u.id delete_group])

/-! ## `iscsi_global.py`

The caller-side invocation is distinguished from the parsed parameters
because `isns_servers` is declared with `default=[]`: a caller who leaves it
unset still produces the parameter value `[]`, never `None`.
-/

/-- Fields of an `iscsi_global` invocation the caller explicitly set. -/
structure IGInvocation where
  basename : Option String
  isns_servers : Option (List String)
  pool_avail_threshold : Option Int
  alua : Option Bool
deriving DecidableEq

/-- Parsed `module.params` of `iscsi_global` (after `argument_spec`
defaults: `isns_servers` falls back to `[]`). -/
structure IGParams where
  basename : Option String
  isns_servers : List String
  pool_avail_threshold : Option Int
  alua : Option Bool
deriving DecidableEq

/-- Argument parsing of `iscsi_global`: only `isns_servers` has a declared
default. -/
def iscsi_global_parse (inv : IGInvocation) : IGParams where
  basename := inv.basename
  isns_servers := inv.isns_servers.getD []
  pool_avail_threshold := inv.pool_avail_threshold
  alua := inv.alua

/-- The remote configuration returned by `iscsi.global.config`
(`pool_avail_threshold` is nullable on the wire). -/
structure IGConfig where
  basename : String
  isns_servers : List String
  pool_avail_threshold : Option Int
  alua : Bool
deriving DecidableEq

/-- The update payload assembled by `iscsi_global.main` (`state=present`);
`none` means the key is absent. -/
structure IGUpdates where
  basename : Option String
  isns_servers : Option (List String)
  pool_avail_threshold : Option Int
  alua : Option Bool
deriving DecidableEq

/-- Field comparisons of `iscsi_global.main` lines 100-114: a key enters
`updates` iff the parameter is not `None` and differs from the current
value; `isns_servers` is never `None` after parsing. -/
def iscsi_global_updates (current : IGConfig) (params : IGParams) : IGUpdates where
  basename := match params.basename with
    | none => none
    | some b => if current.basename = b then none else some b
  isns_servers :=
    if current.isns_servers = params.isns_servers then none
    else some params.isns_servers
  pool_avail_threshold := match params.pool_avail_threshold with
    | none => none
    | some n => if current.pool_avail_threshold = some n then none else some n
  alua := match params.alua with
    | none => none
    | some b => if current.alua = b then none else some b

/-! ## `iscsi_auth.py`

The auth flow is embedded with the lookups it performs (`queries`) recorded
next to the mutating calls, so that dry-run behaviour is expressible: in
check mode the classification and lookups are unchanged and only the
mutating call is suppressed.  Formatted ids are dropped from failure
messages.
-/

/-- An auth record as returned by `iscsi.auth.query`. -/
structure ARec where
  id : Int
  tag : Option Int
  user : Option String
  secret : Option String
  peeruser : Option String
  peersecret : Option String
deriving DecidableEq

/-- Parsed parameters of the `iscsi_auth` module. -/
structure AParams where
  id : Option Int
  tag : Option Int
  user : Option String
  secret : Option String
  peeruser : Option String
  peersecret : Option String
deriving DecidableEq

/-- `find_auth_by_id`: server-side filter on `id`, first result or `None`. -/
def find_auth_by_id (db : List ARec) (aid : Int) : Option ARec :=
  (db.filter (fun r => decide (r.id = aid))).head?

/-- The update payload assembled by the auth `state=present` branch. -/
structure AUpdates where
  tag : Option Int
  user : Option String
  secret : Option String
  peeruser : Option String
  peersecret : Option String
deriving DecidableEq

/-- Python `if not to_update:`. -/
def AUpdates.isEmpty (u : AUpdates) : Bool :=
  u.tag.isNone && u.user.isNone && u.secret.isNone &&
    u.peeruser.isNone && u.peersecret.isNone

/-- Field-by-field update computation of `iscsi_auth.main` for a found
record. -/
def auth_updates (existing : ARec) (p : AParams) : AUpdates where
  tag := match p.tag with
    | none => none
    | some v => if existing.tag = some v then none else some v
  user := match p.user with
    | none => none
    | some v => if existing.user = some v then none else some v
  secret := match p.secret with
    | none => none
    | some v => if existing.secret = some v then none else some v
  peeruser := match p.peeruser with
    | none => none
    | some v => if existing.peeruser = some v then none else some v
  peersecret := match p.peersecret with
    | none => none
    | some v => if existing.peersecret = some v then none else some v

/-- Payload of the auth create branch (`tag`, `user`, `secret` mandatory). -/
structure APayload where
  tag : Int
  user : String
  secret : String
  peeruser : Option String
  peersecret : Option String
deriving DecidableEq

/-- A mutating middleware call of the auth module. -/
inductive AuthCall where
  | create (payload : APayload)
  | update (aid : Int) (u : AUpdates)
  | delete (aid : Int)
deriving DecidableEq

/-- Exit of an auth invocation, with the `iscsi.auth.query` lookups issued. -/
structure AOutcome where
  failed : Option String
  changed : Bool
  calls : List AuthCall
  queries : List Int
deriving DecidableEq

/-- Python `12 <= len(s) <= 16`. -/
def secretLenOk (st : String) : Bool :=
  decide (12 ≤ st.length) && decide (st.length ≤ 16)

/-- The secret validation of `iscsi_auth.main` lines 159-167, run only for
`state=present`; both guards test truthiness, so `""` bypasses them. -/
def auth_validate (p : AParams) : Option String :=
  if truthyStr p.secret && !secretLenOk (p.secret.getD "") then
    some "secret must be 12-16 characters."
  else if truthyStr p.peersecret then
    if !secretLenOk (p.peersecret.getD "") then
      some "peersecret must be 12-16 characters."
    else if truthyStr p.secret && decide (p.peersecret = p.secret) then
      some "peersecret must not match secret."
    else none
  else none

/-- Update/create half of the auth `state=present` branch after validation;
the middleware addresses updates by the record id that was looked up. -/
def auth_present_resolved (p : AParams) (check : Bool) (queries : List Int) :
    Option ARec → AOutcome
  | some ex =>
    let u := auth_updates ex p
    if u.isEmpty then ⟨none, false, [], queries⟩
    else ⟨none, true, (if check then [] else [AuthCall.update ex.id u]), queries⟩
  | none =>
    match p.tag, p.user, p.secret with
    | some t, some usr, some sec =>
      ⟨none, true,
        (if check then []
         else [AuthCall.create ⟨t, usr, sec, p.peeruser, p.peersecret⟩]), queries⟩
    | _, _, _ =>
      ⟨some "tag, user, and secret are required to create a new iSCSI auth record.",
        false, [], queries⟩

/-- `iscsi_auth.main`, `state=present`: the lookup happens up front whenever
an id was supplied, then the secrets are validated, then the record is
updated or created. -/
def auth_present (db : List ARec) (p : AParams) (check : Bool) : AOutcome :=
  let queries : List Int := match p.id with
    | some i => [i]
    | none => []
  let existing : Option ARec := match p.id with
    | some i => find_auth_by_id db i
    | none => none
  match auth_validate p with
  | some msg => ⟨some msg, false, [], queries⟩
  | none => auth_present_resolved p check queries existing

/-- `iscsi_auth.main`, `state=absent`: a falsy id (`None` or `0`) is a usage
error, a missing record is a successful no-op. -/
def auth_absent (db : List ARec) (p : AParams) (check : Bool) : AOutcome :=
  let queries : List Int := match p.id with
    | some i => [i]
    | none => []
  let existing : Option ARec := match p.id with
    | some i => find_auth_by_id db i
    | none => none
  match p.id with
  | none => ⟨some "id is required to delete iSCSI auth.", false, [], queries⟩
  | some rid =>
    if rid = 0 then ⟨some "id is required to delete iSCSI auth.", false, [], queries⟩
    else
      match existing with
      | none => ⟨none, false, [], queries⟩
      | some _ =>
        ⟨none, true, (if check then [] else [AuthCall.delete rid]), queries⟩

/-! ## `truenas_query.py`

The module forwards one query call; in check mode it does not call the
middleware at all and pretends an empty result.
-/

/-- Exit of a `truenas_query` invocation: the returned `json_result`, and
whether the middleware call was executed. -/
structure TQOutcome where
  json_result : List Dict
  called : Bool
  changed : Bool
deriving DecidableEq

/-- `truenas_query.main`, abstracted over the records the middleware call
would return live. -/
def truenas_query_main (live_result : List Dict) (check : Bool) : TQOutcome :=
  if check then ⟨[], false, false⟩ else ⟨live_result, true, false⟩

/-! ## `iscsi_initiator.py`

The lookup is guarded by Python truthiness (`if initiator_id:`), so an id of
`0` is treated like a missing id.  Lookups performed are recorded in
`queries`; formatted ids are dropped from messages.
-/

/-- An initiator record (fields indexed directly by the update branch). -/
structure IRec where
  id : Int
  initiators : List String
  auth_network : List String
  comment : String
deriving DecidableEq

/-- Parsed parameters of the `iscsi_initiator` module. -/
structure IParams where
  id : Option Int
  initiators : Option (List String)
  auth_network : Option (List String)
  comment : Option String
deriving DecidableEq

/-- `find_initiator_by_id`: server-side filter on `id`, first result or
`None`. -/
def find_initiator_by_id (db : List IRec) (iid : Int) : Option IRec :=
  (db.filter (fun r => decide (r.id = iid))).head?

/-- Python `set(a) != set(b)` on string lists, as used by the initiator
update comparisons. -/
def strSetEq (a b : List String) : Bool := decide (a.toFinset = b.toFinset)

/-- The update payload assembled by the initiator `state=present` branch. -/
structure IUpdates where
  initiators : Option (List String)
  auth_network : Option (List String)
  comment : Option String
deriving DecidableEq

/-- Python `if not updates:`. -/
def IUpdates.isEmpty (u : IUpdates) : Bool :=
  u.initiators.isNone && u.auth_network.isNone && u.comment.isNone

/-- Field comparisons of the initiator update branch: the two list fields
compare as sets, `comment` by equality. -/
def initiator_updates (existing : IRec) (p : IParams) : IUpdates where
  initiators := match p.initiators with
    | none => none
    | some l => if strSetEq l existing.initiators then none else some l
  auth_network := match p.auth_network with
    | none => none
    | some l => if strSetEq l existing.auth_network then none else some l
  comment := match p.comment with
    | none => none
    | some c => if existing.comment = c then none else some c

/-- Payload of the initiator create branch (every key optional). -/
structure IPayload where
  initiators : Option (List String)
  auth_network : Option (List String)
  comment : Option String
deriving DecidableEq

/-- A mutating middleware call of the initiator module. -/
inductive InitiatorCall where
  | create (payload : IPayload)
  | update (iid : Int) (u : IUpdates)
  | delete (iid : Int)
deriving DecidableEq

/-- Exit of an initiator invocation, with the lookups issued. -/
structure IOutcome where
  failed : Option String
  changed : Bool
  calls : List InitiatorCall
  queries : List Int
deriving DecidableEq

/-- `iscsi_initiator.main` for a given `state` string: the lookup runs only
for a truthy id; `query` and `absent` require a truthy id; `present` updates
the found record or creates a new one. -/
def initiator_main (db : List IRec) (state : String) (p : IParams) (check : Bool) :
    IOutcome :=
  let queries : List Int := if truthyInt p.id then [p.id.getD 0] else []
  let existing : Option IRec :=
    if truthyInt p.id then find_initiator_by_id db (p.id.getD 0) else none
  if state = "query" then
    if !truthyInt p.id then
      ⟨some "id is required to query an iSCSI initiator.", false, [], queries⟩
    else
      match existing with
      | some _ => ⟨none, false, [], queries⟩
      | none => ⟨some "No iSCSI initiator found with that id.", false, [], queries⟩
  else if state = "absent" then
    if !truthyInt p.id then
      ⟨some "id is required to delete an iSCSI initiator.", false, [], queries⟩
    else
      match existing with
      | none => ⟨none, false, [], queries⟩
      | some _ =>
        ⟨none, true, (if check then [] else [InitiatorCall.delete (p.id.getD 0)]),
          queries⟩
  else
    match existing with
    | some ex =>
      let u := initiator_updates ex p
      if u.isEmpty then ⟨none, false, [], queries⟩
      else
        ⟨none, true, (if check then [] else [InitiatorCall.update (p.id.getD 0) u]),
          queries⟩
    | none =>
      ⟨none, true,
        (if check then []
         else [InitiatorCall.create ⟨p.initiators, p.auth_network, p.comment⟩]),
        queries⟩

/-! ## `iscsi_targetextent.py`

Same truthiness pattern as the initiator module (`if assoc_id:`). -/

/-- A target-extent association record. -/
structure TXRec where
  id : Int
  target : Int
  lunid : Int
  extent : Int
deriving DecidableEq

/-- Parsed parameters of the `iscsi_targetextent` module. -/
structure TXParams where
  id : Option Int
  target : Option Int
  lunid : Option Int
  extent : Option Int
  force : Bool
deriving DecidableEq

/-- `find_assoc_by_id`: server-side filter on `id`, first result or `None`. -/
def find_assoc_by_id (db : List TXRec) (aid : Int) : Option TXRec :=
  (db.filter (fun r => decide (r.id = aid))).head?

/-- The update payload assembled by the association `state=present` branch. -/
structure TXUpdates where
  target : Option Int
  lunid : Option Int
  extent : Option Int
deriving DecidableEq

/-- Python `if not updates:`. -/
def TXUpdates.isEmpty (u : TXUpdates) : Bool :=
  u.target.isNone && u.lunid.isNone && u.extent.isNone

/-- Field comparisons of the association update branch. -/
def targetextent_updates (existing : TXRec) (p : TXParams) : TXUpdates where
  target := match p.target with
    | none => none
    | some v => if existing.target = v then none else some v
  lunid := match p.lunid with
    | none => none
    | some v => if existing.lunid = v then none else some v
  extent := match p.extent with
    | none => none
    | some v => if existing.extent = v then none else some v

/-- Payload of the association create branch (`target` and `extent`
mandatory, `lunid` optional). -/
structure TXPayload where
  target : Int
  extent : Int
  lunid : Option Int
deriving DecidableEq

/-- A mutating middleware call of the association module (`delete` forwards
the `force` parameter). -/
inductive TXCall where
  | create (payload : TXPayload)
  | update (aid : Int) (u : TXUpdates)
  | delete (aid : Int) (force : Bool)
deriving DecidableEq

/-- Exit of an association invocation, with the lookups issued. -/
structure TXOutcome where
  failed : Option String
  changed : Bool
  calls : List TXCall
  queries : List Int
deriving DecidableEq

/-- `iscsi_targetextent.main` for a given `state` string. -/
def targetextent_main (db : List TXRec) (state : String) (p : TXParams)
    (check : Bool) : TXOutcome :=
  let queries : List Int := if truthyInt p.id then [p.id.getD 0] else []
  let existing : Option TXRec :=
    if truthyInt p.id then find_assoc_by_id db (p.id.getD 0) else none
  if state = "absent" then
    if !truthyInt p.id then
      ⟨some "id is required to delete a target-extent association.", false, [],
        queries⟩
    else
      match existing with
      | none => ⟨none, false, [], queries⟩
      | some _ =>
        ⟨none, true,
          (if check then [] else [TXCall.delete (p.id.getD 0) p.force]), queries⟩
  else
    match existing with
    | some ex =>
      let u := targetextent_updates ex p
      if u.isEmpty then ⟨none, false, [], queries⟩
      else
        ⟨none, true, (if check then [] else [TXCall.update (p.id.getD 0) u]),
          queries⟩
    | none =>
      match p.target, p.extent with
      | some t, some e =>
        ⟨none, true,
          (if check then [] else [TXCall.create ⟨t, e, p.lunid⟩]), queries⟩
      | _, _ =>
        ⟨some "target and extent are required to create a new association.",
          false, [], queries⟩

/-! ## Claim theorems -/

/-- C3: for every `state=absent` invocation whose identifier (for the
portal) or identifier/natural key (for the target) matches no existing
record, the module exits successfully with `changed=false` and issues no
delete call; absence is never an error. -/
theorem absent_missing_record_noop :
    (∀ (db : List PRec) (p : PParams) (check : Bool) (pid : Int),
        p.id = some pid → get_portal_by_id db pid = none →
        portal_absent db p check = POutcome.okP false []) ∧
    (∀ (db : List TRec) (p : TParams) (check : Bool),
        (∀ tid, p.id = some tid → find_target_by_id db tid = none) →
        (p.id = none → find_targets_by_name db p.name = []) →
        target_absent db p check = TOutcome.okT false []) := by
  constructor
  · intro db p check pid hid hget
    simp [portal_absent, hid, hget]
  · intro db p check hid hname
    match hp : p.id with
    | some tid =>
      have hfind := hid tid hp
      simp [target_absent, hp, hfind]
    | none =>
      have hempty := hname hp
      by_cases ht : truthyStr p.name
      · simp [target_absent, hp, ht, hempty]
      · simp [target_absent, hp, ht]

/-- Witness for C3 (spec scenario 4: desired id 7, no such record). -/
theorem absent_missing_record_noop_witness :
    portal_absent [] ⟨some 7, none, none, none, none⟩ false = POutcome.okP false [] ∧
    target_absent [] ⟨some 7, none, none, none, none⟩ false = TOutcome.okT false [] :=
  ⟨absent_missing_record_noop.1 [] ⟨some 7, none, none, none, none⟩ false 7 rfl rfl,
   absent_missing_record_noop.2 [] ⟨some 7, none, none, none, none⟩ false
     (fun _ _ => rfl) (fun _ => rfl)⟩

/-- C4 counterexample: under `state=present` with an identifier that matches
no record, `iscsi_portal` does not proceed to create — it fails with a
not-found error. -/
theorem portal_present_id_not_found_fails :
    portal_present [] ⟨some 5, none, none, none, none⟩ false
      = POutcome.failedP "No portal found with that id; cannot update." ∧
    ∀ c calls, portal_present [] ⟨some 5, none, none, none, none⟩ false
      ≠ POutcome.okP c calls := by
  constructor
  · rfl
  · intro c calls h
    cases h

/-- C4 amended: under `state=present`, when resolution finds no existing
record the target module proceeds directly to create (no diff, no not-found
error) whether an id or a name was supplied, and the portal module proceeds
directly to create when no id was supplied; a portal id that matches nothing
instead fails with a not-found error. -/
theorem resolution_none_goes_to_create :
    (∀ (db : List PRec) (p : PParams) (check : Bool),
        p.id = none →
        portal_present db p check
          = POutcome.okP true
              (if check then [] else [PortalCall.create (portal_create_payload p)])) ∧
    (∀ (db : List TRec) (p : TParams) (check : Bool) (n : String),
        p.name = some n → n ≠ "" →
        (∀ tid, p.id = some tid → find_target_by_id db tid = none) →
        (p.id = none → find_targets_by_name db (some n) = []) →
        target_present db p check
          = TOutcome.okT true
              (if check then []
               else [TargetCall.create ⟨n, p.alias_, p.mode, p.groups⟩])) ∧
    (∀ (db : List PRec) (p : PParams) (check : Bool) (pid : Int),
        p.id = some pid → get_portal_by_id db pid = none →
        portal_present db p check
          = POutcome.failedP "No portal found with that id; cannot update.") := by
  refine ⟨?_, ?_, ?_⟩
  · intro db p check hid
    simp [portal_present, hid]
  · intro db p check n hn hne hid hname
    match hp : p.id with
    | some tid =>
      have hfind := hid tid hp
      simp [target_present, hp, hfind, target_present_resolved, hn, hne]
    | none =>
      have hempty := hname hp
      have ht : truthyStr (some n) = true := by simp [truthyStr, hne]
      simp [target_present, hp, ht, hn, hempty, target_present_resolved, hne]
  · intro db p check pid hid hget
    simp [portal_present, hid, hget]

/-- Witness for C4's amended theorem (and spec scenario 1: create a target
named `t1` with one group, no existing record). -/
theorem resolution_none_goes_to_create_witness :
    portal_present [] ⟨none, some "c", none, none, none⟩ false
      = POutcome.okP true
          [PortalCall.create (portal_create_payload ⟨none, some "c", none, none, none⟩)] ∧
    target_present [] ⟨none, some "t1", none, none,
        some [[Pair.mk "portal" (Val.int 1), Pair.mk "initiator" (Val.int 2)]]⟩ false
      = TOutcome.okT true
          [TargetCall.create ⟨"t1", none, none,
            some [[Pair.mk "portal" (Val.int 1), Pair.mk "initiator" (Val.int 2)]]⟩] ∧
    portal_present [] ⟨some 5, none, none, none, none⟩ false
      = POutcome.failedP "No portal found with that id; cannot update." :=
  ⟨resolution_none_goes_to_create.1 [] ⟨none, some "c", none, none, none⟩ false rfl,
   resolution_none_goes_to_create.2.1 [] _ false "t1" rfl (by decide)
     (fun _ h => by cases h) (fun _ => rfl),
   resolution_none_goes_to_create.2.2 [] _ false 5 rfl rfl⟩

/-- C9: in `iscsi_initiator` and `iscsi_targetextent` an id of `0` behaves
exactly like a missing id (the truthiness guards): no lookup of record 0 is
performed, `state=absent` with id 0 fails with the id-required usage error,
and `state=present` with id 0 takes the create path. -/
theorem id_zero_treated_as_missing :
    (∀ (db : List IRec) (state : String) (p : IParams) (check : Bool),
        initiator_main db state { p with id := some 0 } check
          = initiator_main db state { p with id := none } check) ∧
    (∀ (db : List TXRec) (state : String) (p : TXParams) (check : Bool),
        targetextent_main db state { p with id := some 0 } check
          = targetextent_main db state { p with id := none } check) ∧
    (∀ (db : List IRec) (p : IParams) (check : Bool),
        p.id = some 0 →
        initiator_main db "absent" p check
          = ⟨some "id is required to delete an iSCSI initiator.", false, [], []⟩) ∧
    (∀ (db : List IRec) (p : IParams) (check : Bool),
        p.id = some 0 →
        initiator_main db "present" p check
          = ⟨none, true,
              (if check then []
               else [InitiatorCall.create ⟨p.initiators, p.auth_network, p.comment⟩]),
              []⟩) ∧
    (∀ (db : List TXRec) (p : TXParams) (check : Bool),
        p.id = some 0 →
        targetextent_main db "absent" p check
          = ⟨some "id is required to delete a target-extent association.",
              false, [], []⟩) ∧
    (∀ (db : List TXRec) (p : TXParams) (check : Bool) (t e : Int),
        p.id = some 0 → p.target = some t → p.extent = some e →
        targetextent_main db "present" p check
          = ⟨none, true,
              (if check then [] else [TXCall.create ⟨t, e, p.lunid⟩]), []⟩) := by
  refine ⟨?_, ?_, ?_, ?_, ?_, ?_⟩
  · intro db state p check
    rfl
  · intro db state p check
    rfl
  · intro db p check hid
    simp [initiator_main, hid, truthyInt]
  · intro db p check hid
    simp [initiator_main, hid, truthyInt]
  · intro db p check hid
    simp [targetextent_main, hid, truthyInt]
  · intro db p check t e hid ht he
    simp [targetextent_main, hid, ht, he, truthyInt]

/-- Witness for C9 at concrete inputs. -/
theorem id_zero_treated_as_missing_witness :
    initiator_main [] "absent" ⟨some 0, none, none, none⟩ false
      = ⟨some "id is required to delete an iSCSI initiator.", false, [], []⟩ ∧
    initiator_main [] "present" ⟨some 0, none, none, none⟩ false
      = ⟨none, true, [InitiatorCall.create ⟨none, none, none⟩], []⟩ ∧
    targetextent_main [] "absent" ⟨some 0, none, none, none, false⟩ false
      = ⟨some "id is required to delete a target-extent association.",
          false, [], []⟩ ∧
    targetextent_main [] "present" ⟨some 0, some 10, some 5, some 20, false⟩ false
      = ⟨none, true, [TXCall.create ⟨10, 20, some 5⟩], []⟩ :=
  ⟨id_zero_treated_as_missing.2.2.1 [] ⟨some 0, none, none, none⟩ false rfl,
   id_zero_treated_as_missing.2.2.2.1 [] ⟨some 0, none, none, none⟩ false rfl,
   id_zero_treated_as_missing.2.2.2.2.1 [] ⟨some 0, none, none, none, false⟩ false rfl,
   id_zero_treated_as_missing.2.2.2.2.2 [] ⟨some 0, some 10, some 5, some 20, false⟩
     false 10 20 rfl rfl rfl⟩

theorem secretLenOk_false_of {st : String} (h : ¬(12 ≤ st.length ∧ st.length ≤ 16)) :
    secretLenOk st = false := by
  simp only [secretLenOk, Bool.and_eq_false_iff, decide_eq_false_iff_not]
  by_cases h12 : 12 ≤ st.length
  · exact Or.inr (fun h16 => h ⟨h12, h16⟩)
  · exact Or.inl h12

theorem auth_validate_isSome {p : AParams}
    (hbad : (∃ st, p.secret = some st ∧ st ≠ "" ∧ ¬(12 ≤ st.length ∧ st.length ≤ 16)) ∨
      (∃ ps, p.peersecret = some ps ∧ ps ≠ "" ∧
        (¬(12 ≤ ps.length ∧ ps.length ≤ 16) ∨ p.secret = some ps))) :
    (auth_validate p).isSome = true := by
  unfold auth_validate
  rcases hbad with ⟨st, hs, hne, hlen⟩ | ⟨ps, hps, hpne, hrest⟩
  · rw [hs]
    have ht : truthyStr (some st) = true := by simp [truthyStr, hne]
    simp [ht, secretLenOk_false_of hlen]
  · have ht : truthyStr (some ps) = true := by simp [truthyStr, hpne]
    cases hc1 : (truthyStr p.secret && !secretLenOk (p.secret.getD "")) with
    | true => simp [hc1]
    | false =>
      rcases hrest with hlen | hseq
      · simp [hc1, hps, ht, secretLenOk_false_of hlen]
      · have hts : truthyStr p.secret = true := by rw [hseq]; exact ht
        have hlenok : secretLenOk (p.secret.getD "") = true := by
          rw [hts] at hc1
          simpa using hc1
        simp only [hc1, hps, ht, hseq, hts, hlenok]
        cases hok : secretLenOk ps <;> simp [hok]

/-- C10: for `iscsi_auth` with `state=present`, a non-empty secret or
peersecret of length outside 12..16, or a non-empty peersecret equal to the
supplied secret, fails the invocation before any create or update call is
issued; an empty-string secret or peersecret bypasses the validation because
the guards test truthiness. -/
theorem auth_secret_validation :
    (∀ (db : List ARec) (p : AParams) (check : Bool),
        ((∃ st, p.secret = some st ∧ st ≠ "" ∧ ¬(12 ≤ st.length ∧ st.length ≤ 16)) ∨
         (∃ ps, p.peersecret = some ps ∧ ps ≠ "" ∧
            (¬(12 ≤ ps.length ∧ ps.length ≤ 16) ∨ p.secret = some ps))) →
        (auth_present db p check).failed.isSome = true ∧
          (auth_present db p check).calls = []) ∧
    (∀ p : AParams,
        p.secret = some "" → (p.peersecret = none ∨ p.peersecret = some "") →
        auth_validate p = none) := by
  constructor
  · intro db p check hbad
    have hval := auth_validate_isSome hbad
    rcases hms : auth_validate p with _ | msg
    · rw [hms] at hval
      cases hval
    · constructor
      · simp [auth_present, hms]
      · simp [auth_present, hms]
  · intro p hs hps
    have ht : truthyStr p.secret = false := by simp [hs, truthyStr]
    have htp : truthyStr p.peersecret = false := by
      rcases hps with h | h
      · simp [h, truthyStr]
      · simp [h, truthyStr]
    simp [auth_validate, ht, htp]

/-- Witness for C10: a 5-character secret is rejected with no mutating call,
and an empty-string secret passes validation. -/
theorem auth_secret_validation_witness :
    ((auth_present [] ⟨none, some 1, some "u", some "short", none, none⟩ false).failed.isSome
        = true ∧
      (auth_present [] ⟨none, some 1, some "u", some "short", none, none⟩ false).calls
        = []) ∧
    auth_validate ⟨none, some 1, some "u", some "", none, none⟩ = none :=
  ⟨auth_secret_validation.1 [] ⟨none, some 1, some "u", some "short", none, none⟩ false
     (Or.inl ⟨"short", rfl, by decide, by decide⟩),
   auth_secret_validation.2 ⟨none, some 1, some "u", some "", none, none⟩ rfl (Or.inl rfl)⟩

/-- Check mode changes nothing about an `iscsi_auth` `state=present`
invocation except that the mutating call is suppressed. -/
theorem auth_present_check_mode (db : List ARec) (p : AParams) :
    auth_present db p true = { auth_present db p false with calls := [] } := by
  have core : ∀ (queries : List Int) (existing : Option ARec),
      auth_present_resolved p true queries existing
        = { auth_present_resolved p false queries existing with calls := [] } := by
    intro queries existing
    cases existing with
    | some ex =>
      simp only [auth_present_resolved]
      cases hu : (auth_updates ex p).isEmpty <;> simp [hu]
    | none =>
      simp only [auth_present_resolved]
      cases p.tag <;> cases p.user <;> cases p.secret <;> rfl
  simp only [auth_present]
  cases hv : auth_validate p with
  | some msg => rfl
  | none => exact core _ _

/-- Check mode changes nothing about an `iscsi_auth` `state=absent`
invocation except that the delete call is suppressed. -/
theorem auth_absent_check_mode (db : List ARec) (p : AParams) :
    auth_absent db p true = { auth_absent db p false with calls := [] } := by
  simp only [auth_absent]
  cases hid : p.id with
  | none => rfl
  | some rid =>
    by_cases hz : rid = 0
    · simp [hz]
    · cases hex : find_auth_by_id db rid <;> simp [hz, hex]

/-- C5 counterexample: in check mode, `truenas_query` does not execute its
query call at all and reports an empty result, so the previewed outcome is
not computed from live remote data. -/
theorem truenas_query_check_mode_skips_call :
    (truenas_query_main [[Pair.mk "comment" (Val.str "x")]] true).called = false ∧
    (truenas_query_main [[Pair.mk "comment" (Val.str "x")]] true).json_result = [] ∧
    (truenas_query_main [[Pair.mk "comment" (Val.str "x")]] false).called = true ∧
    (truenas_query_main [[Pair.mk "comment" (Val.str "x")]] false).json_result
      = [[Pair.mk "comment" (Val.str "x")]] :=
  ⟨rfl, rfl, rfl, rfl⟩

/-- C5 amended: in the reconciler module `iscsi_auth`, dry run never issues a
mutating call while the lookup/diff classification (queries issued, failure,
`changed`) is exactly that of a live run; `truenas_query`, however, skips its
query call entirely in check mode and returns an empty result instead of live
data. -/
theorem check_mode_no_mutations_live_classification :
    (∀ (db : List ARec) (p : AParams),
        (auth_present db p true).calls = [] ∧
        (auth_absent db p true).calls = [] ∧
        (auth_present db p true).queries = (auth_present db p false).queries ∧
        (auth_present db p true).failed = (auth_present db p false).failed ∧
        (auth_present db p true).changed = (auth_present db p false).changed ∧
        (auth_absent db p true).queries = (auth_absent db p false).queries ∧
        (auth_absent db p true).failed = (auth_absent db p false).failed ∧
        (auth_absent db p true).changed = (auth_absent db p false).changed) ∧
    (∀ live_result : List Dict,
        (truenas_query_main live_result true).called = false ∧
        (truenas_query_main live_result true).json_result = [] ∧
        (truenas_query_main live_result true).changed = false ∧
        (truenas_query_main live_result false).changed = false) := by
  constructor
  · intro db p
    rw [auth_present_check_mode, auth_absent_check_mode]
    exact ⟨rfl, rfl, rfl, rfl, rfl, rfl, rfl, rfl⟩
  · intro live_result
    exact ⟨rfl, rfl, rfl, rfl⟩

/-- C2 counterexample: an `iscsi_global` invocation that sets only
`basename` (every other field left unset by the caller) still produces an
`isns_servers` entry in the update payload, because `isns_servers` is
declared with `default=[]` and so is never `None` after parsing. -/
theorem unset_isns_servers_enters_updates :
    (⟨some "iqn.new", none, none, none⟩ : IGInvocation).isns_servers = none ∧
    (⟨some "iqn.new", none, none, none⟩ : IGInvocation).pool_avail_threshold = none ∧
    (⟨some "iqn.new", none, none, none⟩ : IGInvocation).alua = none ∧
    (iscsi_global_updates ⟨"iqn.old", ["10.0.0.1"], none, false⟩
        (iscsi_global_parse ⟨some "iqn.new", none, none, none⟩)).isns_servers
      = some [] := by
  refine ⟨rfl, rfl, rfl, ?_⟩
  decide

/-- C2 amended: in `iscsi_global`, every field whose parameter is `None`
when unset (`basename`, `pool_avail_threshold`, `alua`) never contributes an
entry to the update payload when the caller leaves it unset; `isns_servers`,
whose declared default is `[]`, can contribute only the entry `[]` when left
unset. -/
theorem unset_params_absent_from_updates :
    ∀ (inv : IGInvocation) (current : IGConfig),
      (inv.basename = none →
        (iscsi_global_updates current (iscsi_global_parse inv)).basename = none) ∧
      (inv.pool_avail_threshold = none →
        (iscsi_global_updates current (iscsi_global_parse inv)).pool_avail_threshold
          = none) ∧
      (inv.alua = none →
        (iscsi_global_updates current (iscsi_global_parse inv)).alua = none) ∧
      (inv.isns_servers = none →
        (iscsi_global_updates current (iscsi_global_parse inv)).isns_servers = none ∨
        (iscsi_global_updates current (iscsi_global_parse inv)).isns_servers
          = some []) := by
  intro inv current
  refine ⟨?_, ?_, ?_, ?_⟩
  · intro h
    simp [iscsi_global_updates, iscsi_global_parse, h]
  · intro h
    simp [iscsi_global_updates, iscsi_global_parse, h]
  · intro h
    simp [iscsi_global_updates, iscsi_global_parse, h]
  · intro h
    simp only [iscsi_global_updates, iscsi_global_parse, h, Option.getD_none]
    by_cases he : current.isns_servers = []
    · left
      simp [he]
    · right
      simp [he]

/-- Witness for C2's amended theorem at a concrete invocation. -/
theorem unset_params_absent_from_updates_witness :
    (iscsi_global_updates ⟨"iqn.old", ["10.0.0.1"], none, false⟩
        (iscsi_global_parse ⟨some "iqn.new", none, none, none⟩)).pool_avail_threshold
      = none ∧
    ((iscsi_global_updates ⟨"iqn.old", ["10.0.0.1"], none, false⟩
        (iscsi_global_parse ⟨some "iqn.new", none, none, none⟩)).isns_servers = none ∨
     (iscsi_global_updates ⟨"iqn.old", ["10.0.0.1"], none, false⟩
        (iscsi_global_parse ⟨some "iqn.new", none, none, none⟩)).isns_servers
       = some []) :=
  ⟨(unset_params_absent_from_updates ⟨some "iqn.new", none, none, none⟩
      ⟨"iqn.old", ["10.0.0.1"], none, false⟩).2.1 rfl,
   (unset_params_absent_from_updates ⟨some "iqn.new", none, none, none⟩
      ⟨"iqn.old", ["10.0.0.1"], none, false⟩).2.2.2 rfl⟩

/-- C1 counterexample: with two existing users both named `dup`, the user
module's name lookup silently returns the first match and a `state=absent`
invocation proceeds to delete that record instead of failing with an
ambiguity error. -/
theorem user_name_lookup_picks_first :
    query_user_by_name [⟨1, "dup"⟩, ⟨2, "dup"⟩] "dup" = some ⟨1, "dup"⟩ ∧
    user_absent [⟨1, "dup"⟩, ⟨2, "dup"⟩] none (some "dup") false false
      = UOutcome.okU true [UserCall.delete 1 false] := by
  constructor
  · decide
  · decide

/-- C1 amended: in `iscsi_target`, two or more records matching the desired
name make both the `present` and the `absent` invocation fail with the
ambiguity error, never acting on a chosen record; in `user.py`, name lookup
returns the first record of the server-filtered result, so ambiguity is
silently resolved rather than fatal. -/
theorem ambiguous_name_resolution :
    (∀ (db : List TRec) (p : TParams) (check : Bool) (n : String),
        p.id = none → p.name = some n → n ≠ "" →
        1 < (find_targets_by_name db (some n)).length →
        target_present db p check
            = TOutcome.failedT
                "Multiple iSCSI targets found with that name. Provide id instead." ∧
          target_absent db p check
            = TOutcome.failedT
                "Multiple iSCSI targets found with that name. Provide id to disambiguate.") ∧
    (∀ (db : List URec) (uname : String) (u : URec) (rest : List URec),
        db.filter (fun x => decide (x.username = uname)) = u :: rest →
        query_user_by_name db uname = some u) := by
  constructor
  · intro db p check n hid hn hne hlen
    have ht : truthyStr (some n) = true := by simp [truthyStr, hne]
    constructor
    · simp [target_present, hid, hn, ht, hlen]
    · simp [target_absent, hid, hn, ht, hlen]
  · intro db uname u rest hfilter
    simp [query_user_by_name, hfilter]

/-- Witness for C1's amended theorem (spec scenario 3: two targets named
`dup`). -/
theorem ambiguous_name_resolution_witness :
    (target_present [⟨1, some "dup", none, none, none⟩, ⟨2, some "dup", none, none, none⟩]
        ⟨none, some "dup", none, none, none⟩ false
      = TOutcome.failedT
          "Multiple iSCSI targets found with that name. Provide id instead." ∧
     target_absent [⟨1, some "dup", none, none, none⟩, ⟨2, some "dup", none, none, none⟩]
        ⟨none, some "dup", none, none, none⟩ false
      = TOutcome.failedT
          "Multiple iSCSI targets found with that name. Provide id to disambiguate.") ∧
    query_user_by_name [⟨1, "dup"⟩, ⟨2, "dup"⟩] "dup" = some ⟨1, "dup"⟩ :=
  ⟨ambiguous_name_resolution.1
      [⟨1, some "dup", none, none, none⟩, ⟨2, some "dup", none, none, none⟩]
      ⟨none, some "dup", none, none, none⟩ false "dup" rfl rfl (by decide) (by decide),
   ambiguous_name_resolution.2 [⟨1, "dup"⟩, ⟨2, "dup"⟩] "dup" ⟨1, "dup"⟩ [⟨2, "dup"⟩]
     (by decide)⟩

/-- C8 counterexample: an `iscsi_target` whose stored name equals the
desired name up to surrounding whitespace is not found — the target lookup
compares raw names with no trimming. -/
theorem target_name_lookup_does_not_trim :
    pyStrip " t1 " = pyStrip "t1" ∧
    find_targets_by_name [⟨1, some " t1 ", none, none, none⟩] (some "t1") = [] ∧
    target_absent [⟨1, some " t1 ", none, none, none⟩]
        ⟨none, some "t1", none, none, none⟩ false
      = TOutcome.okT false [] := by
  refine ⟨by decide, by decide, by decide⟩

/-- C8 amended: `iscsi_extent` strips both the desired name and each stored
name before the exact comparison, so a record whose stored (truthy) name
equals the desired name up to surrounding whitespace is found;
`iscsi_target` compares the raw stored name (with `None` read as `""`)
against the raw desired value, with no trimming. -/
theorem name_lookup_trim_semantics :
    (∀ (db : List ERec) (nm st : String) (e : ERec),
        e ∈ db → e.name = some st → st ≠ "" → nm ≠ "" → pyStrip st = pyStrip nm →
        extent_strip_name (some nm) = some (pyStrip nm) ∧
          e ∈ find_by_name (pyStrip nm) db) ∧
    (∀ (db : List TRec) (n : Option String) (t : TRec),
        t ∈ find_targets_by_name db n ↔ t ∈ db ∧ t.name.getD "" = n.getD "") := by
  constructor
  · intro db nm st e hmem hname hstne hnmne htrim
    constructor
    · simp [extent_strip_name, hnmne]
    · rw [find_by_name, List.mem_filter]
      refine ⟨hmem, ?_⟩
      rw [hname]
      simp [hstne, htrim]
  · intro db n t
    rw [find_targets_by_name, List.mem_filter]
    simp

/-- Witness for C8's amended theorem: stored `" t1 "` is found by desired
name `"t1"` in the extent lookup, and the target lookup's raw comparison at
a concrete record. -/
theorem name_lookup_trim_semantics_witness :
    (extent_strip_name (some "t1") = some (pyStrip "t1") ∧
      (⟨1, some " t1 "⟩ : ERec) ∈ find_by_name (pyStrip "t1") [⟨1, some " t1 "⟩]) ∧
    ((⟨1, some "t1", none, none, none⟩ : TRec)
        ∈ find_targets_by_name [⟨1, some "t1", none, none, none⟩] (some "t1") ↔
      (⟨1, some "t1", none, none, none⟩ : TRec)
          ∈ [(⟨1, some "t1", none, none, none⟩ : TRec)] ∧
        (some "t1" : Option String).getD "" = (some "t1" : Option String).getD "") :=
  ⟨name_lookup_trim_semantics.1 [⟨1, some " t1 "⟩] "t1" " t1 " ⟨1, some " t1 "⟩
     (by decide) rfl (by decide) (by decide) (by decide),
   name_lookup_trim_semantics.2 [⟨1, some "t1", none, none, none⟩] (some "t1")
     ⟨1, some "t1", none, none, none⟩⟩

/-- C6: for genuine dicts, the portal listen normalization produces equal
canonical forms exactly when the two lists differ only in element order, key
order, and values of the excluded `"port"` key — so differences confined to
`"port"` never put a `listen` entry into the update payload, while a
difference in any other key makes the canonical forms unequal. -/
theorem normalize_excluding_port_correct :
    (∀ (l₁ l₂ : List Dict),
        (∀ d ∈ l₁, d.NodupKeys) → (∀ d ∈ l₂, d.NodupKeys) →
        (normalize_list_of_dicts l₁ = normalize_list_of_dicts l₂ ↔
          SameExceptPort l₁ l₂)) ∧
    (∀ (existing : PRec) (p : PParams) (els ls : List Dict),
        existing.listen = some els → p.listen = some ls →
        (∀ d ∈ els, d.NodupKeys) → (∀ d ∈ ls, d.NodupKeys) →
        SameExceptPort els ls → (portal_updates existing p).listen = none) := by
  constructor
  · intro l₁ l₂ h₁ h₂
    exact normalize_eq_iff_sameExceptPort h₁ h₂
  · intro ex p els ls hel hpl h₁ h₂ hsame
    have heq : normalize_list_of_dicts els = normalize_list_of_dicts ls :=
      (normalize_eq_iff_sameExceptPort h₁ h₂).mpr hsame
    simp [portal_updates, hpl, hel, normalize_list_of_dicts_opt, heq]

/-- Witness for C6 (spec scenario 2: the same listen entry with ports 3260
and 9999). -/
theorem normalize_excluding_port_correct_witness :
    normalize_list_of_dicts
        [[Pair.mk "ip" (Val.str "0.0.0.0"), Pair.mk "port" (Val.int 3260)]]
      = normalize_list_of_dicts
        [[Pair.mk "port" (Val.int 9999), Pair.mk "ip" (Val.str "0.0.0.0")]] ↔
    SameExceptPort
      [[Pair.mk "ip" (Val.str "0.0.0.0"), Pair.mk "port" (Val.int 3260)]]
      [[Pair.mk "port" (Val.int 9999), Pair.mk "ip" (Val.str "0.0.0.0")]] :=
  normalize_excluding_port_correct.1
    [[Pair.mk "ip" (Val.str "0.0.0.0"), Pair.mk "port" (Val.int 3260)]]
    [[Pair.mk "port" (Val.int 9999), Pair.mk "ip" (Val.str "0.0.0.0")]]
    (by intro d hd; rw [List.mem_singleton] at hd; subst hd; decide)
    (by intro d hd; rw [List.mem_singleton] at hd; subst hd; decide)

/-! ## Idempotence support lemmas for the target flow -/

theorem TRec.applyUpdates_id_eq (r : TRec) (u : TUpdates) : (r.applyUpdates u).id = r.id :=
  rfl

/-- Lookup by id commutes with an id-preserving rewrite of the record set. -/
theorem find_target_by_id_map (db : List TRec) (tid : Int) (g : TRec → TRec)
    (hg : ∀ r, (g r).id = r.id) :
    find_target_by_id (db.map g) tid = (find_target_by_id db tid).map g := by
  unfold find_target_by_id
  have hpred : ((fun t : TRec => decide (t.id = tid)) ∘ g)
      = (fun t : TRec => decide (t.id = tid)) := by
    funext r
    simp [Function.comp, hg]
  rw [List.find?_map, hpred]

/-- Name lookup commutes with a name-preserving rewrite of the record set. -/
theorem find_targets_by_name_map (db : List TRec) (n : Option String) (g : TRec → TRec)
    (hg : ∀ r, (g r).name = r.name) :
    find_targets_by_name (db.map g) n = (find_targets_by_name db n).map g := by
  unfold find_targets_by_name
  have hpred : ((fun t : TRec => decide (t.name.getD "" = n.getD "")) ∘ g)
      = (fun t : TRec => decide (t.name.getD "" = n.getD "")) := by
    funext r
    simp [Function.comp, hg]
  rw [List.filter_map, hpred]

theorem TUpdates.isEmpty_none : TUpdates.isEmpty ⟨none, none, none, none⟩ = true := rfl

/-- Re-diffing a record against the parameters that just updated it yields
the empty payload: every compared field now holds the desired value. -/
theorem target_updates_reapply (ex : TRec) (p : TParams) :
    target_updates (ex.applyUpdates (target_updates ex p)) p
      = ⟨none, none, none, none⟩ := by
  have hname : (target_updates (ex.applyUpdates (target_updates ex p)) p).name = none := by
    cases hp : p.name with
    | none => simp [target_updates, hp]
    | some v =>
      by_cases hc : ex.name = some v
      · simp [target_updates, TRec.applyUpdates, hp, hc]
      · simp [target_updates, TRec.applyUpdates, hp, hc]
  have halias :
      (target_updates (ex.applyUpdates (target_updates ex p)) p).alias_ = none := by
    cases hp : p.alias_ with
    | none => simp [target_updates, hp]
    | some v =>
      by_cases hc : ex.alias_ = some v
      · simp [target_updates, TRec.applyUpdates, hp, hc]
      · simp [target_updates, TRec.applyUpdates, hp, hc]
  have hmode : (target_updates (ex.applyUpdates (target_updates ex p)) p).mode = none := by
    cases hp : p.mode with
    | none => simp [target_updates, hp]
    | some v =>
      by_cases hc : ex.mode = some v
      · simp [target_updates, TRec.applyUpdates, hp, hc]
      · simp [target_updates, TRec.applyUpdates, hp, hc]
  have hgroups :
      (target_updates (ex.applyUpdates (target_updates ex p)) p).groups = none := by
    cases hp : p.groups with
    | none => simp [target_updates, hp]
    | some g =>
      by_cases hc : normalize_groups ex.groups = normalize_groups (some g)
      · simp [target_updates, TRec.applyUpdates, hp, hc]
      · simp [target_updates, TRec.applyUpdates, hp, hc]
  have hall : ∀ u : TUpdates,
      u.name = none → u.alias_ = none → u.mode = none → u.groups = none →
      u = ⟨none, none, none, none⟩ := by
    intro u h1 h2 h3 h4
    cases u
    simp_all
  exact hall _ hname halias hmode hgroups

/-- Diffing a freshly created record against the parameters that created it
yields the empty payload. -/
theorem target_updates_created (newId : Int) (p : TParams) (n : String)
    (hn : p.name = some n) :
    target_updates (target_created newId ⟨n, p.alias_, p.mode, p.groups⟩) p
      = ⟨none, none, none, none⟩ := by
  have hname :
      (target_updates (target_created newId ⟨n, p.alias_, p.mode, p.groups⟩) p).name
        = none := by
    simp [target_updates, target_created, hn]
  have halias :
      (target_updates (target_created newId ⟨n, p.alias_, p.mode, p.groups⟩) p).alias_
        = none := by
    cases hp : p.alias_ <;> simp [target_updates, target_created, hp]
  have hmode :
      (target_updates (target_created newId ⟨n, p.alias_, p.mode, p.groups⟩) p).mode
        = none := by
    cases hp : p.mode <;> simp [target_updates, target_created, hp]
  have hgroups :
      (target_updates (target_created newId ⟨n, p.alias_, p.mode, p.groups⟩) p).groups
        = none := by
    cases hp : p.groups <;> simp [target_updates, target_created, hp]
  have hall : ∀ u : TUpdates,
      u.name = none → u.alias_ = none → u.mode = none → u.groups = none →
      u = ⟨none, none, none, none⟩ := by
    intro u h1 h2 h3 h4
    cases u
    simp_all
  exact hall _ hname halias hmode hgroups

/-- Every non-failed `state=present` target invocation is either the
converged no-op or reports `changed=true`. -/
theorem target_present_classify (db : List TRec) (p : TParams) (check : Bool) :
    (target_present db p check).isFailed = true ∨
    target_present db p check = TOutcome.okT false [] ∨
    (target_present db p check).changed = true := by
  have hres : ∀ existing : Option TRec,
      (target_present_resolved p check existing).isFailed = true ∨
      target_present_resolved p check existing = TOutcome.okT false [] ∨
      (target_present_resolved p check existing).changed = true := by
    intro existing
    cases existing with
    | some ex =>
      cases hu : (target_updates ex p).isEmpty with
      | true =>
        right
        left
        simp [target_present_resolved, hu]
      | false =>
        right
        right
        simp [target_present_resolved, hu, TOutcome.changed]
    | none =>
      cases hn : p.name with
      | none =>
        left
        simp [target_present_resolved, hn, TOutcome.isFailed]
      | some n =>
        by_cases hne : n = ""
        · left
          simp [target_present_resolved, hn, hne, TOutcome.isFailed]
        · right
          right
          simp [target_present_resolved, hn, hne, TOutcome.changed]
  cases hp : p.id with
  | some tid =>
    simpa [target_present, hp] using hres (find_target_by_id db tid)
  | none =>
    cases ht : truthyStr p.name with
    | false =>
      left
      simp [target_present, hp, ht, TOutcome.isFailed]
    | true =>
      by_cases h2 : 1 < (find_targets_by_name db p.name).length
      · left
        simp [target_present, hp, ht, h2, TOutcome.isFailed]
      · simpa [target_present, hp, ht, h2]
          using hres (find_targets_by_name db p.name).head?

/-- Second run of an id-addressed `present` invocation after applying the
first run's calls: a converged no-op. -/
theorem target_idempotent_by_id (db : List TRec) (p : TParams) (newId tid : Int)
    (hp : p.id = some tid) (ex : TRec) (hex : find_target_by_id db tid = some ex) :
    target_present (target_apply db newId (target_present db p false)) p false
      = TOutcome.okT false [] := by
  have hrun1 : target_present db p false = target_present_resolved p false (some ex) := by
    simp [target_present, hp, hex]
  cases hu : (target_updates ex p).isEmpty with
  | true =>
    have h1 : target_present db p false = TOutcome.okT false [] := by
      rw [hrun1]
      simp [target_present_resolved, hu]
    rw [h1]
    show target_present db p false = TOutcome.okT false []
    exact h1
  | false =>
    have h1 : target_present db p false
        = TOutcome.okT true [TargetCall.update ex.id (target_updates ex p)] := by
      rw [hrun1]
      simp [target_present_resolved, hu]
    rw [h1]
    have happ : target_apply db newId
          (TOutcome.okT true [TargetCall.update ex.id (target_updates ex p)])
        = db.map (fun r =>
            if r.id = ex.id then r.applyUpdates (target_updates ex p) else r) := rfl
    rw [happ]
    have hg : ∀ r : TRec,
        ((fun r => if r.id = ex.id then r.applyUpdates (target_updates ex p) else r) r).id
          = r.id := by
      intro r
      by_cases h : r.id = ex.id <;> simp [h, TRec.applyUpdates_id_eq]
    have hfind2 : find_target_by_id
          (db.map (fun r =>
            if r.id = ex.id then r.applyUpdates (target_updates ex p) else r)) tid
        = some (ex.applyUpdates (target_updates ex p)) := by
      rw [find_target_by_id_map db tid _ hg, hex]
      simp
    simp [target_present, hp, hfind2, target_present_resolved,
      target_updates_reapply, TUpdates.isEmpty]

/-- Second run of a name-addressed `present` invocation after applying the
first run's calls: a converged no-op. -/
theorem target_idempotent_by_name (db : List TRec) (p : TParams) (newId : Int)
    (n : String) (hp : p.id = none) (hn : p.name = some n) (hne : n ≠ "")
    (hok : (target_present db p false).isFailed = false) :
    target_present (target_apply db newId (target_present db p false)) p false
      = TOutcome.okT false [] := by
  have ht : truthyStr (some n) = true := by simp [truthyStr, hne]
  by_cases h2 : 1 < (find_targets_by_name db (some n)).length
  · exfalso
    have hfail : target_present db p false
        = TOutcome.failedT
            "Multiple iSCSI targets found with that name. Provide id instead." := by
      simp [target_present, hp, hn, ht, h2]
    rw [hfail] at hok
    simp [TOutcome.isFailed] at hok
  · cases hhead : (find_targets_by_name db (some n)).head? with
    | none =>
      have hempty : find_targets_by_name db (some n) = [] :=
        List.head?_eq_none_iff.mp hhead
      have h1 : target_present db p false
          = TOutcome.okT true
              [TargetCall.create ⟨n, p.alias_, p.mode, p.groups⟩] := by
        simp [target_present, hp, hn, ht, h2, hhead, target_present_resolved, hne]
      rw [h1]
      have happ : target_apply db newId
            (TOutcome.okT true [TargetCall.create ⟨n, p.alias_, p.mode, p.groups⟩])
          = db ++ [target_created newId ⟨n, p.alias_, p.mode, p.groups⟩] := rfl
      rw [happ]
      have hfind2 : find_targets_by_name
            (db ++ [target_created newId ⟨n, p.alias_, p.mode, p.groups⟩]) (some n)
          = [target_created newId ⟨n, p.alias_, p.mode, p.groups⟩] := by
        unfold find_targets_by_name at hempty ⊢
        rw [List.filter_append, hempty]
        simp [target_created]
      simp [target_present, hp, hn, ht, hfind2, target_present_resolved,
        target_updates_created newId p n hn, TUpdates.isEmpty]
    | some ex =>
      have hfound : find_targets_by_name db (some n) = [ex] := by
        cases hf : find_targets_by_name db (some n) with
        | nil =>
          rw [hf] at hhead
          cases hhead
        | cons a t =>
          rw [hf] at hhead h2
          have ha : a = ex := by simpa using hhead
          subst ha
          have htail : t = [] := by
            cases t with
            | nil => rfl
            | cons b t' =>
              exfalso
              apply h2
              simp [List.length_cons]
          rw [htail]
      have hexmem : ex ∈ find_targets_by_name db (some n) := by
        rw [hfound]
        exact List.mem_singleton.mpr rfl
      have hexname : ex.name = some n := by
        unfold find_targets_by_name at hexmem
        have hmem := (List.mem_filter.mp hexmem).2
        have hgd : ex.name.getD "" = n := by simpa using hmem
        cases hnn : ex.name with
        | none =>
          rw [hnn] at hgd
          simp at hgd
          exact absurd hgd.symm hne
        | some s =>
          rw [hnn] at hgd
          simp at hgd
          rw [hgd]
      have h1run : target_present db p false
          = target_present_resolved p false (some ex) := by
        simp [target_present, hp, hn, ht, h2, hfound]
      cases hu : (target_updates ex p).isEmpty with
      | true =>
        have h1 : target_present db p false = TOutcome.okT false [] := by
          rw [h1run]
          simp [target_present_resolved, hu]
        rw [h1]
        show target_present db p false = TOutcome.okT false []
        exact h1
      | false =>
        have h1 : target_present db p false
            = TOutcome.okT true [TargetCall.update ex.id (target_updates ex p)] := by
          rw [h1run]
          simp [target_present_resolved, hu]
        have huname : (target_updates ex p).name = none := by
          simp [target_updates, hn, hexname]
        rw [h1]
        have happ : target_apply db newId
              (TOutcome.okT true [TargetCall.update ex.id (target_updates ex p)])
            = db.map (fun r =>
                if r.id = ex.id then r.applyUpdates (target_updates ex p) else r) := rfl
        rw [happ]
        have hgname : ∀ r : TRec,
            ((fun r =>
              if r.id = ex.id then r.applyUpdates (target_updates ex p) else r) r).name
              = r.name := by
          intro r
          by_cases h : r.id = ex.id
          · simp only [h, if_pos]
            show (r.applyUpdates (target_updates ex p)).name = r.name
            simp [TRec.applyUpdates, huname]
          · simp [h]
        have hfind2 : find_targets_by_name
              (db.map (fun r =>
                if r.id = ex.id then r.applyUpdates (target_updates ex p) else r))
              (some n)
            = [if ex.id = ex.id then ex.applyUpdates (target_updates ex p) else ex] := by
          rw [find_targets_by_name_map db (some n) _ hgname, hfound]
          rfl
        simp only [if_pos rfl] at hfind2
        simp [target_present, hp, hn, ht, hfind2, target_present_resolved,
          target_updates_reapply, TUpdates.isEmpty]

/-- Combined idempotence statement for the target flow: under
no-external-interference (the second run's lookup sees exactly the record
set produced by the first run's calls) and a resolving identifier, the
first run is either the converged no-op or reports a change, and the second
run is always the converged no-op. -/
theorem target_present_idempotent_aux (db : List TRec) (p : TParams) (newId : Int)
    (hok : (target_present db p false).isFailed = false)
    (hid : ∀ tid, p.id = some tid → find_target_by_id db tid ≠ none) :
    (target_present db p false = TOutcome.okT false [] ∨
      (target_present db p false).changed = true) ∧
    target_present (target_apply db newId (target_present db p false)) p false
      = TOutcome.okT false [] := by
  constructor
  · rcases target_present_classify db p false with hf | hnoop | hch
    · rw [hok] at hf
      cases hf
    · exact Or.inl hnoop
    · exact Or.inr hch
  · cases hp : p.id with
    | some tid =>
      have hfind := hid tid hp
      cases hex : find_target_by_id db tid with
      | none => exact absurd hex hfind
      | some ex => exact target_idempotent_by_id db p newId tid hp ex hex
    | none =>
      cases hn : p.name with
      | none =>
        exfalso
        have hfail : target_present db p false
            = TOutcome.failedT "Must provide id or name to manage iSCSI target." := by
          simp [target_present, hp, hn, truthyStr]
        rw [hfail] at hok
        simp [TOutcome.isFailed] at hok
      | some n =>
        by_cases hne : n = ""
        · exfalso
          subst hne
          have hfail : target_present db p false
              = TOutcome.failedT "Must provide id or name to manage iSCSI target." := by
            simp [target_present, hp, hn, truthyStr]
          rw [hfail] at hok
          simp [TOutcome.isFailed] at hok
        · exact target_idempotent_by_name db p newId n hp hn hne hok

/-! ## Gateway semantics for the portal resource -/

/-- The reported `changed` flag of a portal invocation. -/
def POutcome.changed : POutcome → Bool
  | .failedP _ => false
  | .okP c _ => c

/-- Merge a portal update payload into a record. -/
def PRec.applyUpdates (r : PRec) (u : PUpdates) : PRec where
  id := r.id
  comment := match u.comment with
    | some v => some v
    | none => r.comment
  discovery_authmethod := match u.discovery_authmethod with
    | some v => some v
    | none => r.discovery_authmethod
  discovery_authgroup := match u.discovery_authgroup with
    | some v => some v
    | none => r.discovery_authgroup
  listen := match u.listen with
    | some ls => some ls
    | none => r.listen

/-- The record produced by `iscsi.portal.create` under a fresh id. -/
def portal_created (newId : Int) (pl : PPayload) : PRec where
  id := newId
  comment := pl.comment
  discovery_authmethod := pl.discovery_authmethod
  discovery_authgroup := pl.discovery_authgroup
  listen := some pl.listen

/-- Apply one mutating portal call to the remote record set. -/
def portal_apply_call (newId : Int) (db : List PRec) : PortalCall → List PRec
  | .create pl => db ++ [portal_created newId pl]
  | .update pid u => db.map (fun r => if r.id = pid then r.applyUpdates u else r)
  | .delete pid => db.filter (fun r => decide (r.id ≠ pid))

/-- Apply every call issued by a portal outcome to the remote record set. -/
def portal_apply (db : List PRec) (newId : Int) : POutcome → List PRec
  | .failedP _ => db
  | .okP _ calls => calls.foldl (portal_apply_call newId) db

theorem PRec.applyUpdates_id_unchanged (r : PRec) (u : PUpdates) : (r.applyUpdates u).id = r.id :=
  rfl

/-- Portal lookup by id commutes with an id-preserving rewrite of the record
set. -/
theorem get_portal_by_id_map (db : List PRec) (pid : Int) (g : PRec → PRec)
    (hg : ∀ r, (g r).id = r.id) :
    get_portal_by_id (db.map g) pid = (get_portal_by_id db pid).map g := by
  unfold get_portal_by_id
  have hpred : ((fun r : PRec => decide (r.id = pid)) ∘ g)
      = (fun r : PRec => decide (r.id = pid)) := by
    funext r
    simp [Function.comp, hg]
  rw [List.filter_map, hpred, List.head?_map]

/-- Re-diffing a portal record against the parameters that just updated it
yields the empty payload. -/
theorem portal_updates_reapply (ex : PRec) (p : PParams) :
    portal_updates (ex.applyUpdates (portal_updates ex p)) p
      = ⟨none, none, none, none⟩ := by
  have hcomment :
      (portal_updates (ex.applyUpdates (portal_updates ex p)) p).comment = none := by
    cases hp : p.comment with
    | none => simp [portal_updates, hp]
    | some v =>
      by_cases hc : ex.comment = some v
      · simp [portal_updates, PRec.applyUpdates, hp, hc]
      · simp [portal_updates, PRec.applyUpdates, hp, hc]
  have hmethod :
      (portal_updates (ex.applyUpdates (portal_updates ex p)) p).discovery_authmethod
        = none := by
    cases hp : p.discovery_authmethod with
    | none => simp [portal_updates, hp]
    | some v =>
      by_cases hc : ex.discovery_authmethod = some v
      · simp [portal_updates, PRec.applyUpdates, hp, hc]
      · simp [portal_updates, PRec.applyUpdates, hp, hc]
  have hgroup :
      (portal_updates (ex.applyUpdates (portal_updates ex p)) p).discovery_authgroup
        = none := by
    cases hp : p.discovery_authgroup with
    | none => simp [portal_updates, hp]
    | some v =>
      by_cases hc : ex.discovery_authgroup = some v
      · simp [portal_updates, PRec.applyUpdates, hp, hc]
      · simp [portal_updates, PRec.applyUpdates, hp, hc]
  have hlisten :
      (portal_updates (ex.applyUpdates (portal_updates ex p)) p).listen = none := by
    cases hp : p.listen with
    | none => simp [portal_updates, hp]
    | some ls =>
      by_cases hc : normalize_list_of_dicts_opt ex.listen = normalize_list_of_dicts ls
      · simp [portal_updates, PRec.applyUpdates, hp, hc]
      · have step1 : (portal_updates ex p).listen = some ls := by
          simp [portal_updates, hp, hc]
        have step2 : (ex.applyUpdates (portal_updates ex p)).listen = some ls := by
          simp [PRec.applyUpdates, step1]
        have houter : ∀ X : PRec, X.listen = some ls →
            (portal_updates X p).listen
              = (if normalize_list_of_dicts_opt (some ls) = normalize_list_of_dicts ls
                 then none else some ls) := by
          intro X hX
          simp [portal_updates, hp, hX]
        rw [houter _ step2]
        simp [normalize_list_of_dicts_opt]
  have hall : ∀ u : PUpdates,
      u.comment = none → u.discovery_authmethod = none →
      u.discovery_authgroup = none → u.listen = none →
      u = ⟨none, none, none, none⟩ := by
    intro u h1 h2 h3 h4
    cases u
    simp_all
  exact hall _ hcomment hmethod hgroup hlisten

/-- Second run of an id-addressed portal `present` invocation after applying
the first run's calls: a converged no-op. -/
theorem portal_idempotent_by_id (db : List PRec) (p : PParams) (newId pid : Int)
    (hp : p.id = some pid) (ex : PRec) (hex : get_portal_by_id db pid = some ex) :
    (portal_present db p false = POutcome.okP false [] ∨
      (portal_present db p false).changed = true) ∧
    portal_present (portal_apply db newId (portal_present db p false)) p false
      = POutcome.okP false [] := by
  cases hu : (portal_updates ex p).isEmpty with
  | true =>
    have h1 : portal_present db p false = POutcome.okP false [] := by
      simp [portal_present, hp, hex, hu]
    refine ⟨Or.inl h1, ?_⟩
    rw [h1]
    show portal_present db p false = POutcome.okP false []
    exact h1
  | false =>
    have h1 : portal_present db p false
        = POutcome.okP true [PortalCall.update pid (portal_updates ex p)] := by
      simp [portal_present, hp, hex, hu]
    refine ⟨Or.inr (by rw [h1]; rfl), ?_⟩
    rw [h1]
    have hexid : ex.id = pid := by
      have hmem : ex ∈ db.filter (fun r => decide (r.id = pid)) := by
        have := hex
        unfold get_portal_by_id at this
        exact List.mem_of_mem_head? this
      exact of_decide_eq_true (List.mem_filter.mp hmem).2
    have happ : portal_apply db newId
          (POutcome.okP true [PortalCall.update pid (portal_updates ex p)])
        = db.map (fun r =>
            if r.id = pid then r.applyUpdates (portal_updates ex p) else r) := rfl
    rw [happ]
    have hg : ∀ r : PRec,
        ((fun r => if r.id = pid then r.applyUpdates (portal_updates ex p) else r) r).id
          = r.id := by
      intro r
      by_cases h : r.id = pid <;> simp [h, PRec.applyUpdates_id_unchanged]
    have hfind2 : get_portal_by_id
          (db.map (fun r =>
            if r.id = pid then r.applyUpdates (portal_updates ex p) else r)) pid
        = some (ex.applyUpdates (portal_updates ex p)) := by
      rw [get_portal_by_id_map db pid _ hg, hex]
      simp [hexid]
    simp [portal_present, hp, hfind2, portal_updates_reapply, PUpdates.isEmpty]

/-- C7: applying `state=present` twice in succession with the same desired
record and no external interference (the second run's lookup sees exactly
the record set produced by the first run's calls, and any supplied
identifier resolves, as required for the produced record to be what the
second run's find returns) yields a change at most once, in both the target
and the portal module: the first run is either already the converged no-op
or reports `changed=true`, and the second run is always the converged no-op
(`changed=false`, no calls issued). -/
theorem present_twice_second_run_noop :
    (∀ (db : List TRec) (p : TParams) (newId : Int),
        (target_present db p false).isFailed = false →
        (∀ tid, p.id = some tid → find_target_by_id db tid ≠ none) →
        (target_present db p false = TOutcome.okT false [] ∨
          (target_present db p false).changed = true) ∧
        target_present (target_apply db newId (target_present db p false)) p false
          = TOutcome.okT false []) ∧
    (∀ (db : List PRec) (p : PParams) (newId pid : Int) (ex : PRec),
        p.id = some pid → get_portal_by_id db pid = some ex →
        (portal_present db p false = POutcome.okP false [] ∨
          (portal_present db p false).changed = true) ∧
        portal_present (portal_apply db newId (portal_present db p false)) p false
          = POutcome.okP false []) := by
  constructor
  · intro db p newId hok hid
    exact target_present_idempotent_aux db p newId hok hid
  · intro db p newId pid ex hp hex
    exact portal_idempotent_by_id db p newId pid hp ex hex

/-- Witness for C7: creating target `t1` on an empty record set and
rerunning the same invocation, and updating portal 3's comment and rerunning
that invocation. -/
theorem present_twice_second_run_noop_witness :
    ((target_present [] ⟨none, some "t1", none, none,
          some [[Pair.mk "portal" (Val.int 1), Pair.mk "initiator" (Val.int 2)]]⟩ false
        = TOutcome.okT false [] ∨
      (target_present [] ⟨none, some "t1", none, none,
          some [[Pair.mk "portal" (Val.int 1), Pair.mk "initiator" (Val.int 2)]]⟩
        false).changed = true) ∧
     target_present
        (target_apply [] 1
          (target_present [] ⟨none, some "t1", none, none,
            some [[Pair.mk "portal" (Val.int 1), Pair.mk "initiator" (Val.int 2)]]⟩
            false))
        ⟨none, some "t1", none, none,
          some [[Pair.mk "portal" (Val.int 1), Pair.mk "initiator" (Val.int 2)]]⟩ false
      = TOutcome.okT false []) ∧
    ((portal_present [⟨3, some "old", none, none, none⟩]
          ⟨some 3, some "new", none, none, none⟩ false
        = POutcome.okP false [] ∨
      (portal_present [⟨3, some "old", none, none, none⟩]
          ⟨some 3, some "new", none, none, none⟩ false).changed = true) ∧
     portal_present
        (portal_apply [⟨3, some "old", none, none, none⟩] 9
          (portal_present [⟨3, some "old", none, none, none⟩]
            ⟨some 3, some "new", none, none, none⟩ false))
        ⟨some 3, some "new", none, none, none⟩ false
      = POutcome.okP false []) :=
  ⟨present_twice_second_run_noop.1 [] ⟨none, some "t1", none, none,
      some [[Pair.mk "portal" (Val.int 1), Pair.mk "initiator" (Val.int 2)]]⟩ 1
    (by decide) (fun tid h => Option.noConfusion h),
   present_twice_second_run_noop.2 [⟨3, some "old", none, none, none⟩]
    ⟨some 3, some "new", none, none, none⟩ 9 3 ⟨3, some "old", none, none, none⟩
    rfl (by decide)⟩
